import Mathlib

/-
Verification of the decision-record lifecycle engine
(src/backend/decision_service.py, src/backend/database_service.py,
src/backend/models.py) against its natural-language specification.

The relational store is embedded as lists of rows (one list per table);
SQL queries with LIMIT 1 and no ORDER BY are rendered as List.find? over
the insertion-ordered list.  Fresh uuid4 identifiers are rendered as a
counter threaded through the state.  Python ValueError failures are
rendered as an Except error carrying the store state at the raise point,
so that atomicity-on-failure is a provable statement rather than one true
by construction.
-/

/-- models.py DecisionRecordStatus: the six recognized status values. -/
inductive DecisionRecordStatus
  | proposed
  | accepted
  | implemented
  | implemented_inferred
  | rejected
  | deprecated
deriving DecidableEq

/-- models.py: the string value of each DecisionRecordStatus member. -/
def DecisionRecordStatus.value : DecisionRecordStatus → String
  | .proposed => "proposed"
  | .accepted => "accepted"
  | .implemented => "implemented"
  | .implemented_inferred => "implemented_inferred"
  | .rejected => "rejected"
  | .deprecated => "deprecated"

/-- Parse a status string; none exactly when the string is not one of the
six values ([s.value for s in DecisionRecordStatus] membership test). -/
def DecisionRecordStatus.ofString (s : String) : Option DecisionRecordStatus :=
  if s = "proposed" then some .proposed
  else if s = "accepted" then some .accepted
  else if s = "implemented" then some .implemented
  else if s = "implemented_inferred" then some .implemented_inferred
  else if s = "rejected" then some .rejected
  else if s = "deprecated" then some .deprecated
  else none

/-- decision_service.py lines 21-39: the VALID_TRANSITIONS table. -/
def VALID_TRANSITIONS : DecisionRecordStatus → List DecisionRecordStatus
  | .proposed => [.accepted, .rejected]
  | .accepted => [.implemented, .rejected, .deprecated]
  | .implemented => [.deprecated]
  | .implemented_inferred => [.deprecated]
  | .rejected => []
  | .deprecated => []

/-- decision_service.py lines 638-641: DecisionService._is_valid_transition. -/
def is_valid_transition (from_status to_status : DecisionRecordStatus) : Bool :=
  (VALID_TRANSITIONS from_status).contains to_status

/-- The nine updatable/comparable narrative content fields of a
DecisionRecord (decision_service.py lines 327-330, 787-790, 823-826). -/
inductive ContentField
  | context
  | constraints
  | decision_description
  | rationale
  | assumptions
  | consequences
  | tradeoffs
  | evidence
  | options_considered
deriving DecidableEq

/-- decision_service.py updatable_fields list, in source order. -/
def updatable_fields : List ContentField :=
  [.context, .constraints, .decision_description, .rationale,
   .assumptions, .consequences, .tradeoffs, .evidence, .options_considered]

/-- decision_service.py get_version_diff comparable_fields list (lines
787-790); identical to updatable_fields. -/
def comparable_fields : List ContentField := updatable_fields

/-- The python name of a content field (used in changelog summaries). -/
def ContentField.fieldName : ContentField → String
  | .context => "context"
  | .constraints => "constraints"
  | .decision_description => "decision_description"
  | .rationale => "rationale"
  | .assumptions => "assumptions"
  | .consequences => "consequences"
  | .tradeoffs => "tradeoffs"
  | .evidence => "evidence"
  | .options_considered => "options_considered"

/-- The nine content columns of a decision_records row.  Each is nullable
(Python None / SQL NULL rendered as Option). -/
structure Content where
  context : Option String
  constraints : Option String
  decision_description : Option String
  rationale : Option String
  assumptions : Option String
  consequences : Option String
  tradeoffs : Option String
  evidence : Option String
  options_considered : Option String
deriving DecidableEq

/-- Dictionary-style field access on a content row (record.get(field)). -/
def Content.get (c : Content) : ContentField → Option String
  | .context => c.context
  | .constraints => c.constraints
  | .decision_description => c.decision_description
  | .rationale => c.rationale
  | .assumptions => c.assumptions
  | .consequences => c.consequences
  | .tradeoffs => c.tradeoffs
  | .evidence => c.evidence
  | .options_considered => c.options_considered

/-- Dictionary-style field assignment on a content row. -/
def Content.set (c : Content) : ContentField → Option String → Content
  | .context, v => { c with context := v }
  | .constraints, v => { c with constraints := v }
  | .decision_description, v => { c with decision_description := v }
  | .rationale, v => { c with rationale := v }
  | .assumptions, v => { c with assumptions := v }
  | .consequences, v => { c with consequences := v }
  | .tradeoffs, v => { c with tradeoffs := v }
  | .evidence, v => { c with evidence := v }
  | .options_considered, v => { c with options_considered := v }

/-- A decision_records row.  Identifiers are Nat (threaded counter in
place of uuid4); timestamps are not modelled (no claim depends on them). -/
structure DecisionRecord where
  id : Nat
  decision_id : Nat
  content : Content
  status : DecisionRecordStatus
  version : Nat
deriving DecidableEq

/-- Metadata attached to an automatic status-history entry
(decision_service.py lines 530-533 and analogues). -/
structure HistoryMetadata where
  triggering_decision_record_id : Nat
  change_type : String
deriving DecidableEq

/-- A decision_record_status_history row. -/
structure StatusHistoryEntry where
  id : Nat
  decision_record_id : Nat
  from_status : Option DecisionRecordStatus
  to_status : DecisionRecordStatus
  reason : Option String
  metadata : Option HistoryMetadata
deriving DecidableEq

/-- A decision_record_relationships row. -/
structure Relationship where
  id : Nat
  source_record_id : Nat
  target_record_id : Nat
  relationship_type : String
  description : Option String
deriving DecidableEq

/-- The snapshot payload stored in a decision_record_versions row
(decision_service.py snapshot_data dicts: the nine content fields plus
status, version and decision_id; timestamps omitted). -/
structure Snapshot where
  record_id : Nat
  decision_id : Nat
  content : Content
  status : DecisionRecordStatus
  version : Nat
deriving DecidableEq

/-- A decision_record_versions row, keyed by (decision_record_id, version). -/
structure RecordVersion where
  id : Nat
  decision_record_id : Nat
  version : Nat
  snapshot : Snapshot
deriving DecidableEq

/-- One field-level old/new pair inside a changelog diff. -/
structure FieldChange where
  field : ContentField
  old : Option String
  new : Option String
deriving DecidableEq

/-- A decision_record_changelog row. -/
structure ChangelogEntry where
  id : Nat
  decision_record_id : Nat
  from_version : Nat
  to_version : Nat
  changes : List FieldChange
  summary : String
deriving DecidableEq

/-- The relational store: one insertion-ordered list per table, plus the
fresh-identifier counter standing in for uuid4. -/
structure DB where
  decisions : List Nat
  records : List DecisionRecord
  status_history : List StatusHistoryEntry
  relationships : List Relationship
  versions : List RecordVersion
  changelog : List ChangelogEntry
  nextId : Nat
deriving DecidableEq

/-- Draw a fresh identifier (uuid4 stand-in). -/
def DB.fresh (db : DB) : Nat × DB :=
  (db.nextId, { db with nextId := db.nextId + 1 })

/-- An empty store that knows the given decision ids. -/
def initDB (ds : List Nat) : DB :=
  { decisions := ds, records := [], status_history := [],
    relationships := [], versions := [], changelog := [], nextId := 0 }

/-- The typed failure taxonomy (spec section 7); the source raises
ValueError with a distinguishing message in each case. -/
inductive Err
  | notFound
  | invalidStatus
  | invalidTransition
  | conflict
deriving DecidableEq

/-- SQL row predicate: record belongs to the decision and is accepted. -/
def isAcceptedIn (decision_id : Nat) (r : DecisionRecord) : Bool :=
  r.decision_id == decision_id && r.status == .accepted

/-- SQL row predicate: record belongs to the decision and has status in
(implemented, implemented_inferred). -/
def isImplementedIn (decision_id : Nat) (r : DecisionRecord) : Bool :=
  r.decision_id == decision_id &&
    (r.status == .implemented || r.status == .implemented_inferred)

/-- database_service.py lines 379-385: SELECT by primary key. -/
def DatabaseService.get_decision_record (db : DB) (record_id : Nat) :
    Option DecisionRecord :=
  db.records.find? (fun r => r.id == record_id)

/-- database_service.py lines 466-476: SELECT ... WHERE status = accepted
LIMIT 1 (no ORDER BY: rendered as the first matching row in insertion
order). -/
def DatabaseService.get_current_accepted_record (db : DB) (decision_id : Nat) :
    Option DecisionRecord :=
  db.records.find? (isAcceptedIn decision_id)

/-- database_service.py lines 478-488: SELECT ... WHERE status IN
(implemented, implemented_inferred) LIMIT 1. -/
def DatabaseService.get_current_implemented_record (db : DB) (decision_id : Nat) :
    Option DecisionRecord :=
  db.records.find? (isImplementedIn decision_id)

/-- The row update performed by UPDATE decision_records SET status = ...
WHERE id = ... (database_service.py lines 447-456). -/
def updStatusFn (record_id : Nat) (new_status : DecisionRecordStatus) :
    DecisionRecord → DecisionRecord :=
  fun r => if r.id == record_id then { r with status := new_status } else r

/-- database_service.py lines 447-456: update_decision_record_status. -/
def DatabaseService.update_decision_record_status (db : DB) (record_id : Nat)
    (new_status : DecisionRecordStatus) : DB :=
  { db with records := db.records.map (updStatusFn record_id new_status) }

/-- database_service.py lines 492-511: INSERT into status history. -/
def DatabaseService.create_status_history (db : DB) (h : StatusHistoryEntry) : DB :=
  { db with status_history := db.status_history ++ [h] }

/-- database_service.py lines 536-550: INSERT into relationships. -/
def DatabaseService.create_relationship (db : DB) (rel : Relationship) : DB :=
  { db with relationships := db.relationships ++ [rel] }

/-- database_service.py lines 767-782: INSERT into changelog. -/
def DatabaseService.create_changelog_entry (db : DB) (e : ChangelogEntry) : DB :=
  { db with changelog := db.changelog ++ [e] }

/-- database_service.py lines 733-742: SELECT version row by
(decision_record_id, version). -/
def DatabaseService.get_record_version_by_number (db : DB) (record_id version : Nat) :
    Option RecordVersion :=
  db.versions.find? (fun v => v.decision_record_id == record_id && v.version == version)

/-- database_service.py lines 696-721: create_record_version.  INSERT ...
ON CONFLICT (decision_record_id, version) DO NOTHING; when the insert is
skipped (rowcount 0) the existing row for the pair is fetched and
returned, otherwise the freshly inserted row is returned. -/
def DatabaseService.create_record_version (db : DB) (v : RecordVersion) :
    DB × Option RecordVersion :=
  match DatabaseService.get_record_version_by_number db v.decision_record_id v.version with
  | some existing => (db, some existing)
  | none => ({ db with versions := db.versions ++ [v] }, some v)

/-- Apply a record_data dictionary of content-field assignments to a row
(database_service.py lines 407-445: one SET clause per field present in
record_data; both service callers build record_data with distinct keys
drawn from updatable_fields, so folding the assignments in dictionary
order is the same update). -/
def apply_record_data (c : Content) (data : List (ContentField × Option String)) :
    Content :=
  data.foldl (fun acc fv => acc.set fv.1 fv.2) c

/-- The row update performed by database_service.py update_decision_record
for a record_data holding content fields and a version. -/
def updContentFn (record_id : Nat) (data : List (ContentField × Option String))
    (version : Option Nat) : DecisionRecord → DecisionRecord :=
  fun r =>
    if r.id == record_id then
      { r with content := apply_record_data r.content data,
               version := version.getD r.version }
    else r

/-- database_service.py lines 407-445: update_decision_record (UPDATE then
re-SELECT the row). -/
def DatabaseService.update_decision_record (db : DB) (record_id : Nat)
    (data : List (ContentField × Option String)) (version : Option Nat) :
    DB × Option DecisionRecord :=
  let db' := { db with records := db.records.map (updContentFn record_id data version) }
  (db', DatabaseService.get_decision_record db' record_id)

/-- decision_service.py lines 729-734: get_record_at_version returns the
snapshot payload of the stored version row. -/
def DecisionService.get_record_at_version (db : DB) (record_id version : Nat) :
    Option Snapshot :=
  (DatabaseService.get_record_version_by_number db record_id version).map
    (fun v => v.snapshot)

/-- The value returned by DecisionService.change_record_status (lines
627-632): the updated record and the cascaded sibling ids. -/
structure ChangeStatusResult where
  record : DecisionRecord
  affected_records : List Nat
deriving DecidableEq

/-- decision_service.py lines 516-547: the accepted-conflict block of
change_record_status.  When the target status is accepted and a currently
accepted sibling with a different id exists: with auto_handle_conflicts it
is rejected, logged and linked with a superseded_by edge; without it the
call raises (Conflict) having written nothing. -/
def DecisionService.handle_accepted_conflict_block (db : DB)
    (record_id decision_id : Nat) (auto_handle_conflicts : Bool) :
    Except (Err × DB) (DB × List Nat) :=
  match DatabaseService.get_current_accepted_record db decision_id with
  | none => .ok (db, [])
  | some current_accepted =>
    if current_accepted.id ≠ record_id then
      if auto_handle_conflicts then
        let db1 := DatabaseService.update_decision_record_status db
          current_accepted.id .rejected
        let (hid, db2) := db1.fresh
        let db3 := DatabaseService.create_status_history db2
          { id := hid, decision_record_id := current_accepted.id,
            from_status := some current_accepted.status,
            to_status := .rejected,
            reason := some "Automatically rejected: Another record was accepted",
            metadata := some { triggering_decision_record_id := record_id,
                               change_type := "automatic" } }
        let (rid, db4) := db3.fresh
        let db5 := DatabaseService.create_relationship db4
          { id := rid, source_record_id := current_accepted.id,
            target_record_id := record_id,
            relationship_type := "superseded_by",
            description := some ("Automatically superseded when record "
              ++ toString record_id ++ " was accepted") }
        .ok (db5, [current_accepted.id])
      else .error (.conflict, db)
    else .ok (db, [])

/-- decision_service.py lines 550-581: the implemented-conflict block.
When the target status is implemented and a currently implemented (or
implemented_inferred) sibling with a different id exists: with
auto_handle_conflicts it is deprecated, logged and linked; without it the
call raises (Conflict) having written nothing. -/
def DecisionService.handle_implemented_conflict_block (db : DB)
    (record_id decision_id : Nat) (auto_handle_conflicts : Bool) :
    Except (Err × DB) (DB × List Nat) :=
  match DatabaseService.get_current_implemented_record db decision_id with
  | none => .ok (db, [])
  | some current_implemented =>
    if current_implemented.id ≠ record_id then
      if auto_handle_conflicts then
        let db1 := DatabaseService.update_decision_record_status db
          current_implemented.id .deprecated
        let (hid, db2) := db1.fresh
        let db3 := DatabaseService.create_status_history db2
          { id := hid, decision_record_id := current_implemented.id,
            from_status := some current_implemented.status,
            to_status := .deprecated,
            reason := some "Automatically deprecated: Another record was implemented",
            metadata := some { triggering_decision_record_id := record_id,
                               change_type := "automatic" } }
        let (rid, db4) := db3.fresh
        let db5 := DatabaseService.create_relationship db4
          { id := rid, source_record_id := current_implemented.id,
            target_record_id := record_id,
            relationship_type := "superseded_by",
            description := some ("Automatically superseded when record "
              ++ toString record_id ++ " was implemented") }
        .ok (db5, [current_implemented.id])
      else .error (.conflict, db)
    else .ok (db, [])

/-- decision_service.py lines 583-610: the accepted-sibling block that
runs while implementing.  Identical writes to the accepted-conflict block
except the sibling is deprecated, and crucially there is no else-raise:
when auto_handle_conflicts is false the block is silently skipped. -/
def DecisionService.handle_accepted_on_implement_block (db : DB)
    (record_id decision_id : Nat) (auto_handle_conflicts : Bool) :
    DB × List Nat :=
  match DatabaseService.get_current_accepted_record db decision_id with
  | none => (db, [])
  | some current_accepted =>
    if current_accepted.id ≠ record_id then
      if auto_handle_conflicts then
        let db1 := DatabaseService.update_decision_record_status db
          current_accepted.id .deprecated
        let (hid, db2) := db1.fresh
        let db3 := DatabaseService.create_status_history db2
          { id := hid, decision_record_id := current_accepted.id,
            from_status := some current_accepted.status,
            to_status := .deprecated,
            reason := some "Automatically deprecated: Another record was implemented",
            metadata := some { triggering_decision_record_id := record_id,
                               change_type := "automatic" } }
        let (rid, db4) := db3.fresh
        let db5 := DatabaseService.create_relationship db4
          { id := rid, source_record_id := current_accepted.id,
            target_record_id := record_id,
            relationship_type := "superseded_by",
            description := some ("Automatically superseded when record "
              ++ toString record_id ++ " was implemented") }
        (db5, [current_accepted.id])
      else (db, [])
    else (db, [])

/-- decision_service.py lines 612-632: the tail of change_record_status.
Writes the new status, appends the history entry and re-fetches the
updated record.  The none branch mirrors the re-fetch coming back empty;
it is unreachable because the record was found at the top of
change_record_status and no step removes rows. -/
def DecisionService.finalize_status_change (db : DB) (record_id : Nat)
    (old_status ns : DecisionRecordStatus) (reason : Option String)
    (affected_records : List Nat) :
    Except (Err × DB) (DB × ChangeStatusResult) :=
  let db6 := DatabaseService.update_decision_record_status db record_id ns
  let (hid, db7) := db6.fresh
  let db8 := DatabaseService.create_status_history db7
    { id := hid, decision_record_id := record_id, from_status := some old_status,
      to_status := ns, reason := reason, metadata := none }
  match DatabaseService.get_decision_record db8 record_id with
  | some updated_record =>
    .ok (db8, { record := updated_record, affected_records := affected_records })
  | none => .error (.notFound, db8)

/-- decision_service.py lines 494-632: DecisionService.change_record_status.
Checks run in source order (NotFound, InvalidStatus, InvalidTransition),
then the conflict blocks, then the final status write, history entry and
re-fetch (finalize_status_change). -/
def DecisionService.change_record_status (db : DB) (record_id : Nat)
    (new_status : String) (reason : Option String)
    (auto_handle_conflicts : Bool) :
    Except (Err × DB) (DB × ChangeStatusResult) :=
  match DatabaseService.get_decision_record db record_id with
  | none => .error (.notFound, db)
  | some record =>
    match DecisionRecordStatus.ofString new_status with
    | none => .error (.invalidStatus, db)
    | some ns =>
      if is_valid_transition record.status ns then
        match (if ns = .accepted then
                 DecisionService.handle_accepted_conflict_block db record_id
                   record.decision_id auto_handle_conflicts
               else .ok (db, [])) with
        | .error e => .error e
        | .ok (dbA, affA) =>
          match ((if ns = .implemented then
                    match DecisionService.handle_implemented_conflict_block dbA
                        record_id record.decision_id auto_handle_conflicts with
                    | .error e => .error e
                    | .ok (dbI, affI) =>
                      let (dbI2, affI2) :=
                        DecisionService.handle_accepted_on_implement_block dbI
                          record_id record.decision_id auto_handle_conflicts
                      .ok (dbI2, affI ++ affI2)
                  else .ok (dbA, [])) :
                 Except (Err × DB) (DB × List Nat)) with
          | .error e => .error e
          | .ok (dbB, affB) =>
            DecisionService.finalize_status_change dbB record_id record.status ns
              reason (affA ++ affB)
      else .error (.invalidTransition, db)

/-- decision_service.py lines 214-287: DecisionService.create_decision_record.
The decision must exist; an explicit status must be one of the six values
(the check is skipped for a falsy status, i.e. None or the empty string,
which fall back to proposed via status or PROPOSED); then the record row,
the initial StatusHistory entry (from_status null) and the version-1
snapshot are written. -/
def DecisionService.create_decision_record (db : DB) (decision_id : Nat)
    (content : Content) (status : Option String) :
    Except (Err × DB) (DB × DecisionRecord) :=
  if db.decisions.contains decision_id then
    match ((match status with
            | some s =>
              if s ≠ "" then
                match DecisionRecordStatus.ofString s with
                | some st => Except.ok st
                | none => Except.error ()
              else Except.ok DecisionRecordStatus.proposed
            | none => Except.ok DecisionRecordStatus.proposed) :
           Except Unit DecisionRecordStatus) with
    | .error _ => .error (.invalidStatus, db)
    | .ok st =>
      let (rid, db1) := db.fresh
      let record : DecisionRecord :=
        { id := rid, decision_id := decision_id, content := content,
          status := st, version := 1 }
      let db2 := { db1 with records := db1.records ++ [record] }
      let (hid, db3) := db2.fresh
      let db4 := DatabaseService.create_status_history db3
        { id := hid, decision_record_id := rid, from_status := none,
          to_status := st, reason := some "Initial creation", metadata := none }
      let (vid, db5) := db4.fresh
      let db6 := (DatabaseService.create_record_version db5
        { id := vid, decision_record_id := rid, version := 1,
          snapshot := { record_id := rid, decision_id := decision_id,
                        content := content, status := st, version := 1 } }).1
      .ok (db6, record)
  else .error (.notFound, db)

/-- decision_service.py lines 308-408: DecisionService.update_decision_record.
The nine optional arguments form the payload; a None argument means the
field was not supplied (Python cannot distinguish the two), so the payload
is a Content value whose some fields are the supplied ones. -/
def DecisionService.update_decision_record (db : DB) (record_id : Nat)
    (payload : Content) : Except (Err × DB) (DB × DecisionRecord) :=
  match DatabaseService.get_decision_record db record_id with
  | none => .error (.notFound, db)
  | some current_record =>
    let record_data : List (ContentField × Option String) :=
      updatable_fields.filterMap (fun f =>
        match payload.get f with
        | some v => some (f, some v)
        | none => none)
    if record_data.isEmpty then .ok (db, current_record)
    else
      let changes : List FieldChange :=
        record_data.filterMap (fun fv =>
          let old_value := current_record.content.get fv.1
          if old_value ≠ fv.2 then
            some { field := fv.1, old := old_value, new := fv.2 }
          else none)
      if changes.isEmpty then .ok (db, current_record)
      else
        let current_version := current_record.version
        let new_version := current_version + 1
        let db1 :=
          match DatabaseService.get_record_version_by_number db record_id
              current_version with
          | some _ => db
          | none =>
            let (vid, dbf) := db.fresh
            (DatabaseService.create_record_version dbf
              { id := vid, decision_record_id := record_id,
                version := current_version,
                snapshot := { record_id := current_record.id,
                              decision_id := current_record.decision_id,
                              content := current_record.content,
                              status := current_record.status,
                              version := current_record.version } }).1
        match DatabaseService.update_decision_record db1 record_id record_data
            (some new_version) with
        | (db2, result?) =>
          let (cid, db3) := db2.fresh
          let db4 := DatabaseService.create_changelog_entry db3
            { id := cid, decision_record_id := record_id,
              from_version := current_version, to_version := new_version,
              changes := changes,
              summary := "Updated: " ++ String.intercalate ", "
                (changes.map (fun c => c.field.fieldName)) }
          match result? with
          | some result => .ok (db4, result)
          | none => .error (.notFound, db4)

/-- decision_service.py lines 803-878: DecisionService.revert_to_version.
Loads the target snapshot, lazily snapshots the pre-revert state, copies
the nine content fields (and only those) from the target snapshot, bumps
the version and writes a changelog entry whose summary falls back to
Reverted-to-version when the reason is falsy. -/
def DecisionService.revert_to_version (db : DB) (record_id version : Nat)
    (reason : Option String) : Except (Err × DB) (DB × DecisionRecord) :=
  match DecisionService.get_record_at_version db record_id version with
  | none => .error (.notFound, db)
  | some target_snapshot =>
    match DatabaseService.get_decision_record db record_id with
    | none => .error (.notFound, db)
    | some current_record =>
      let current_version := current_record.version
      let new_version := current_version + 1
      let db1 :=
        match DatabaseService.get_record_version_by_number db record_id
            current_version with
        | some _ => db
        | none =>
          let (vid, dbf) := db.fresh
          (DatabaseService.create_record_version dbf
            { id := vid, decision_record_id := record_id,
              version := current_version,
              snapshot := { record_id := current_record.id,
                            decision_id := current_record.decision_id,
                            content := current_record.content,
                            status := current_record.status,
                            version := current_record.version } }).1
      let record_data : List (ContentField × Option String) :=
        updatable_fields.map (fun f => (f, target_snapshot.content.get f))
      let changes : List FieldChange :=
        updatable_fields.filterMap (fun f =>
          let old_value := current_record.content.get f
          let new_value := target_snapshot.content.get f
          if old_value ≠ new_value then
            some { field := f, old := old_value, new := new_value }
          else none)
      match DatabaseService.update_decision_record db1 record_id record_data
          (some new_version) with
      | (db2, result?) =>
        let summary :=
          match reason with
          | some s => if s = "" then "Reverted to version " ++ toString version else s
          | none => "Reverted to version " ++ toString version
        let (cid, db3) := db2.fresh
        let db4 := DatabaseService.create_changelog_entry db3
          { id := cid, decision_record_id := record_id,
            from_version := current_version, to_version := new_version,
            changes := changes, summary := summary }
        match result? with
        | some result => .ok (db4, result)
        | none => .error (.notFound, db4)

/-- The from/to argument of get_version_diff: an integer version or the
sentinel string current. -/
inductive VersionRef
  | current
  | num (v : Nat)
deriving DecidableEq

/-- The diff value returned by get_version_diff (decision_service.py lines
779-785): both labels, both resolved version numbers, and the field-level
changes. -/
structure VersionDiff where
  from_version : VersionRef
  from_version_number : Nat
  to_version : VersionRef
  to_version_number : Nat
  changes : List FieldChange
deriving DecidableEq

/-- Resolve one side of a diff (decision_service.py lines 751-776): the
current sentinel uses the live record (its content and live version),
an integer version uses the stored snapshot. -/
def DecisionService.resolve_diff_side (db : DB) (record_id : Nat) :
    VersionRef → Option (Content × Nat)
  | .current =>
    (DatabaseService.get_decision_record db record_id).map
      (fun r => (r.content, r.version))
  | .num v =>
    (DecisionService.get_record_at_version db record_id v).map
      (fun s => (s.content, v))

/-- decision_service.py lines 740-801: DecisionService.get_version_diff.
Read-only; compares exactly the comparable_fields of the two resolved
sides. -/
def DecisionService.get_version_diff (db : DB) (record_id : Nat)
    (from_version to_version : VersionRef) : Except Err VersionDiff :=
  match DecisionService.resolve_diff_side db record_id from_version with
  | none => .error .notFound
  | some (from_content, from_version_number) =>
    match DecisionService.resolve_diff_side db record_id to_version with
    | none => .error .notFound
    | some (to_content, to_version_number) =>
      let changes : List FieldChange :=
        comparable_fields.filterMap (fun f =>
          let old_value := from_content.get f
          let new_value := to_content.get f
          if old_value ≠ new_value then
            some { field := f, old := old_value, new := new_value }
          else none)
      .ok { from_version := from_version,
            from_version_number := from_version_number,
            to_version := to_version,
            to_version_number := to_version_number,
            changes := changes }

/-- The exposed mutating operations, for stating whole-run invariants. -/
inductive Op
  | createRecord (decision_id : Nat) (content : Content) (status : Option String)
  | changeStatus (record_id : Nat) (new_status : String) (reason : Option String)
      (auto_handle_conflicts : Bool)
  | updateContent (record_id : Nat) (payload : Content)
  | revertToVersion (record_id : Nat) (version : Nat) (reason : Option String)

/-- Run one exposed operation; a failed operation leaves the store in the
state carried at the raise point. -/
def applyOp (db : DB) (op : Op) : DB :=
  match op with
  | .createRecord d c st =>
    match DecisionService.create_decision_record db d c st with
    | .ok (db', _) => db'
    | .error (_, dbe) => dbe
  | .changeStatus rid ns reason auto =>
    match DecisionService.change_record_status db rid ns reason auto with
    | .ok (db', _) => db'
    | .error (_, dbe) => dbe
  | .updateContent rid p =>
    match DecisionService.update_decision_record db rid p with
    | .ok (db', _) => db'
    | .error (_, dbe) => dbe
  | .revertToVersion rid v reason =>
    match DecisionService.revert_to_version db rid v reason with
    | .ok (db', _) => db'
    | .error (_, dbe) => dbe

/-- Run a sequence of exposed operations. -/
def applyOps (db : DB) (ops : List Op) : DB :=
  ops.foldl applyOp db

/-- decision-scoped accepted-record count. -/
def accepted_count (db : DB) (decision_id : Nat) : Nat :=
  db.records.countP (isAcceptedIn decision_id)

/-- decision-scoped implemented-or-implemented_inferred count. -/
def implemented_count (db : DB) (decision_id : Nat) : Nat :=
  db.records.countP (isImplementedIn decision_id)

/-- The single-accepted / single-implemented invariant of the spec. -/
def StatusInvariant (db : DB) : Prop :=
  ∀ d : Nat, accepted_count db d ≤ 1 ∧ implemented_count db d ≤ 1

/-- Store well-formedness: record ids are pairwise distinct and below the
fresh-id counter (uuid4 collisions are not modelled). -/
def WF (db : DB) : Prop :=
  (db.records.map (fun r => r.id)).Nodup ∧
    ∀ r ∈ db.records, r.id < db.nextId

/-- A createRecord call whose explicit initial status is none of accepted,
implemented, implemented_inferred; other operations are unrestricted. -/
def SafeOp : Op → Bool
  | .createRecord _ _ st =>
    match st with
    | none => true
    | some s => !(s == "accepted" || s == "implemented" || s == "implemented_inferred")
  | _ => true

/-- The error component of an operation result. -/
def resultErr {α : Type} : Except (Err × DB) α → Option Err
  | .error (e, _) => some e
  | .ok _ => none

/-- Following the amended claim C4: a sibling under the same decision,
other than the record itself, currently accepted. -/
def has_distinct_accepted_sibling (db : DB) (record_id decision_id : Nat) : Bool :=
  db.records.any (fun s => isAcceptedIn decision_id s && s.id != record_id)

/-- Following the amended claim C4: a distinct sibling currently
implemented or implemented_inferred. -/
def has_distinct_implemented_sibling (db : DB) (record_id decision_id : Nat) : Bool :=
  db.records.any (fun s => isImplementedIn decision_id s && s.id != record_id)

/-- Modelled from the amended claim C4 wording (not from the source): the
error changeStatus should report, with checks applied in order NotFound,
InvalidStatus, InvalidTransition, then Conflict exactly when
auto_handle_conflicts is false and a distinct conflicting sibling exists
for the targeted status. -/
def spec_change_status_err (db : DB) (record_id : Nat) (new_status : String)
    (auto_handle_conflicts : Bool) : Option Err :=
  match DatabaseService.get_decision_record db record_id with
  | none => some .notFound
  | some record =>
    match DecisionRecordStatus.ofString new_status with
    | none => some .invalidStatus
    | some st =>
      if is_valid_transition record.status st then
        if !auto_handle_conflicts &&
            ((st == .accepted &&
               has_distinct_accepted_sibling db record_id record.decision_id) ||
             (st == .implemented &&
               has_distinct_implemented_sibling db record_id record.decision_id))
        then some .conflict
        else none
      else some .invalidTransition

/-
Fixtures: concrete stores used by counterexamples and witnesses.
-/

/-- A concrete content row. -/
def sampleContent : Content :=
  ⟨none, none, some "Use Postgres", none, none, none, none, none, none⟩

/-- A second concrete content row. -/
def sampleContent2 : Content :=
  ⟨none, none, some "Use MySQL", none, none, none, none, none, none⟩

/-- A store holding one decision with two records both created directly in
status accepted (record ids 0 and 3); reachable through the exposed
operations because create_decision_record performs no conflict check. -/
def twoAcceptedDB : DB :=
  applyOps (initDB [1])
    [.createRecord 1 sampleContent (some "accepted"),
     .createRecord 1 sampleContent2 (some "accepted")]

/-- A store holding one decision with a single proposed record (id 0). -/
def oneRecordDB : DB :=
  applyOps (initDB [1]) [.createRecord 1 sampleContent none]

/-- The record created first in oneRecordDB. -/
def record0 : DecisionRecord :=
  { id := 0, decision_id := 1, content := sampleContent,
    status := .proposed, version := 1 }

/-- One decision, record 0 accepted and record 3 proposed; built through the
exposed operations. -/
def acceptedProposedDB : DB :=
  applyOps (initDB [1])
    [.createRecord 1 sampleContent none,
     .createRecord 1 sampleContent2 none,
     .changeStatus 0 "accepted" none true]

/-- A payload setting only the rationale field. -/
def rationalePayload : Content :=
  ⟨none, none, none, some "because benchmarks", none, none, none, none, none⟩

/-- oneRecordDB after a content update of the rationale (record 0 is at
version 2 and a version-1 snapshot exists). -/
def updatedDB : DB :=
  applyOps oneRecordDB [.updateContent 0 rationalePayload]

/-- The snapshot row keyed (0, 1) stored at record creation. -/
def versionRow0 : RecordVersion :=
  { id := 2, decision_record_id := 0, version := 1,
    snapshot := { record_id := 0, decision_id := 1, content := sampleContent,
                  status := .proposed, version := 1 } }

/-- twoAcceptedDB after implementing record 3 with auto_handle_conflicts
off. -/
def implementNoAutoDB : DB :=
  applyOps twoAcceptedDB [.changeStatus 3 "implemented" none false]

/-- At most one decision_record_versions row per (decision_record_id,
version) pair. -/
def VersionKeysUnique (db : DB) : Prop :=
  (db.versions.map (fun w => (w.decision_record_id, w.version))).Nodup

/-- The store produced by the accepted-conflict cascade on sibling ca. -/
def cascadeRejectDB (db : DB) (rid : Nat) (ca : DecisionRecord) : DB :=
  { db with
    records := db.records.map (updStatusFn ca.id .rejected),
    status_history := db.status_history ++
      [{ id := db.nextId, decision_record_id := ca.id,
         from_status := some ca.status, to_status := .rejected,
         reason := some "Automatically rejected: Another record was accepted",
         metadata := some { triggering_decision_record_id := rid,
                            change_type := "automatic" } }],
    relationships := db.relationships ++
      [{ id := db.nextId + 1, source_record_id := ca.id, target_record_id := rid,
         relationship_type := "superseded_by",
         description := some ("Automatically superseded when record "
           ++ toString rid ++ " was accepted") }],
    nextId := db.nextId + 2 }

/-- The store produced by deprecating sibling s while implementing rid. -/
def cascadeDeprecateDB (db : DB) (rid : Nat) (s : DecisionRecord) : DB :=
  { db with
    records := db.records.map (updStatusFn s.id .deprecated),
    status_history := db.status_history ++
      [{ id := db.nextId, decision_record_id := s.id,
         from_status := some s.status, to_status := .deprecated,
         reason := some "Automatically deprecated: Another record was implemented",
         metadata := some { triggering_decision_record_id := rid,
                            change_type := "automatic" } }],
    relationships := db.relationships ++
      [{ id := db.nextId + 1, source_record_id := s.id, target_record_id := rid,
         relationship_type := "superseded_by",
         description := some ("Automatically superseded when record "
           ++ toString rid ++ " was implemented") }],
    nextId := db.nextId + 2 }

/-- The final writes of change_record_status (decision_service.py lines
612-622): set the target status and append the history entry. -/
def finalizeDB (db : DB) (rid : Nat) (old ns : DecisionRecordStatus)
    (reason : Option String) : DB :=
  { db with
    records := db.records.map (updStatusFn rid ns),
    status_history := db.status_history ++
      [{ id := db.nextId, decision_record_id := rid, from_status := some old,
         to_status := ns, reason := reason, metadata := none }],
    nextId := db.nextId + 1 }

/-- The record_data dictionary built by update_decision_record from the
supplied payload fields. -/
def payload_record_data (p : Content) : List (ContentField × Option String) :=
  updatable_fields.filterMap (fun f =>
    match p.get f with
    | some v => some (f, some v)
    | none => none)

theorem create_record_version_existing {db : DB} {v : RecordVersion}
    {w : RecordVersion}
    (h : DatabaseService.get_record_version_by_number db v.decision_record_id
      v.version = some w) :
    DatabaseService.create_record_version db v = (db, some w) := by
  unfold DatabaseService.create_record_version
  rw [h]

theorem create_record_version_insert {db : DB} {v : RecordVersion}
    (h : DatabaseService.get_record_version_by_number db v.decision_record_id
      v.version = none) :
    DatabaseService.create_record_version db v =
      ({ db with versions := db.versions ++ [v] }, some v) := by
  unfold DatabaseService.create_record_version
  rw [h]

/-
Helper lemmas: counting, find? and row updates.
-/

theorem two_le_countP_of_ne {α : Type} {p : α → Bool} {l : List α} {a b : α}
    (ha : a ∈ l) (hb : b ∈ l) (hne : a ≠ b) (hpa : p a) (hpb : p b) :
    2 ≤ l.countP p := by
  induction l with
  | nil => cases ha
  | cons x t ih =>
    rw [List.countP_cons]
    rcases List.mem_cons.mp ha with rfl | hat
    · have hbt : b ∈ t := by
        rcases List.mem_cons.mp hb with rfl | h
        · exact (hne rfl).elim
        · exact h
      have h1 : 0 < t.countP p := List.countP_pos_iff.mpr ⟨b, hbt, hpb⟩
      simp only [hpa, if_pos]
      omega
    · rcases List.mem_cons.mp hb with rfl | hbt
      · have h1 : 0 < t.countP p := List.countP_pos_iff.mpr ⟨a, hat, hpa⟩
        simp only [hpb, if_pos]
        omega
      · have := ih hat hbt
        omega

theorem eq_of_countP_le_one {α : Type} {p : α → Bool} {l : List α}
    (h : l.countP p ≤ 1) {a b : α} (ha : a ∈ l) (hb : b ∈ l)
    (hpa : p a) (hpb : p b) : a = b := by
  by_contra hne
  have := two_le_countP_of_ne ha hb hne hpa hpb
  omega

theorem find?_eq_some_of_unique {α : Type} {p : α → Bool} {l : List α}
    (h : l.countP p ≤ 1) {a : α} (ha : a ∈ l) (hpa : p a) :
    l.find? p = some a := by
  cases hf : l.find? p with
  | none => exact absurd hpa (List.find?_eq_none.mp hf a ha)
  | some b =>
    have hb := List.mem_of_find?_eq_some hf
    have hpb := List.find?_some hf
    rw [eq_of_countP_le_one h hb ha hpb hpa]

theorem find?_isSome_of_mem {α : Type} {p : α → Bool} {l : List α} {a : α}
    (ha : a ∈ l) (hpa : p a) : ∃ b, l.find? p = some b := by
  cases hf : l.find? p with
  | none => exact absurd hpa (List.find?_eq_none.mp hf a ha)
  | some b => exact ⟨b, rfl⟩

theorem updStatusFn_id (i : Nat) (st : DecisionRecordStatus) (r : DecisionRecord) :
    (updStatusFn i st r).id = r.id := by
  unfold updStatusFn
  split <;> rfl

theorem updStatusFn_of_ne (i : Nat) (st : DecisionRecordStatus)
    {r : DecisionRecord} (h : r.id ≠ i) : updStatusFn i st r = r := by
  simp [updStatusFn, h]

theorem updContentFn_id (i : Nat) (data : List (ContentField × Option String))
    (v : Option Nat) (r : DecisionRecord) : (updContentFn i data v r).id = r.id := by
  unfold updContentFn
  split <;> rfl

theorem updContentFn_status (i : Nat) (data : List (ContentField × Option String))
    (v : Option Nat) (r : DecisionRecord) :
    (updContentFn i data v r).status = r.status := by
  unfold updContentFn
  split <;> rfl

theorem updContentFn_decision (i : Nat) (data : List (ContentField × Option String))
    (v : Option Nat) (r : DecisionRecord) :
    (updContentFn i data v r).decision_id = r.decision_id := by
  unfold updContentFn
  split <;> rfl

theorem map_id_of_id_preserved {f : DecisionRecord → DecisionRecord}
    (hf : ∀ r, (f r).id = r.id) (rs : List DecisionRecord) :
    (rs.map f).map (fun r => r.id) = rs.map (fun r => r.id) := by
  rw [List.map_map]
  exact List.map_congr_left (fun a _ => hf a)

theorem find?_id_map {f : DecisionRecord → DecisionRecord}
    (hf : ∀ r, (f r).id = r.id) (rs : List DecisionRecord) (i : Nat) :
    (rs.map f).find? (fun r => r.id == i) =
      (rs.find? (fun r => r.id == i)).map f := by
  induction rs with
  | nil => rfl
  | cons x t ih =>
    rw [List.map_cons, List.find?_cons, List.find?_cons, hf x]
    cases hx : (x.id == i) with
    | true => simp
    | false => simpa using ih

theorem countP_map_of_pred_eq (p : DecisionRecord → Bool)
    {f : DecisionRecord → DecisionRecord} (hf : ∀ r, p (f r) = p r)
    (rs : List DecisionRecord) : (rs.map f).countP p = rs.countP p := by
  rw [List.countP_map]
  exact List.countP_congr (fun a _ => by simp [Function.comp, hf a])

theorem countP_map_updStatusFn (p : DecisionRecord → Bool)
    (st : DecisionRecordStatus) (rs : List DecisionRecord)
    (hnd : (rs.map (fun r => r.id)).Nodup)
    (r : DecisionRecord) (hr : r ∈ rs) :
    (rs.map (updStatusFn r.id st)).countP p + (if p r then 1 else 0)
      = rs.countP p + (if p { r with status := st } then 1 else 0) := by
  induction rs with
  | nil => cases hr
  | cons x t ih =>
    simp only [List.map_cons, List.countP_cons] at *
    have hnd' := (List.nodup_cons.mp hnd).2
    have hxt := (List.nodup_cons.mp hnd).1
    rcases List.mem_cons.mp hr with rfl | hrt
    · have htail : t.map (updStatusFn r.id st) = t := by
        have : t.map (updStatusFn r.id st) = t.map id :=
          List.map_congr_left (fun y hy => by
            have hyne : y.id ≠ r.id := fun h => hxt (h ▸ List.mem_map_of_mem _ hy)
            simpa using updStatusFn_of_ne r.id st hyne)
        simpa using this
      have hhead : updStatusFn r.id st r = { r with status := st } := by
        simp [updStatusFn]
      rw [htail, hhead]
      omega
    · have hxne : x.id ≠ r.id := fun h => hxt (h ▸ List.mem_map_of_mem _ hrt)
      rw [updStatusFn_of_ne r.id st hxne]
      have := ih hnd' hrt
      omega

theorem get_decision_record_mem {db : DB} {rid : Nat} {r : DecisionRecord}
    (h : DatabaseService.get_decision_record db rid = some r) :
    r ∈ db.records ∧ r.id = rid := by
  refine ⟨List.mem_of_find?_eq_some h, ?_⟩
  have := List.find?_some h
  simpa using this

theorem accepted_count_zero_of_none {db : DB} {d : Nat}
    (h : DatabaseService.get_current_accepted_record db d = none) :
    accepted_count db d = 0 := by
  unfold accepted_count
  exact List.countP_eq_zero.mpr (List.find?_eq_none.mp h)

theorem implemented_count_zero_of_none {db : DB} {d : Nat}
    (h : DatabaseService.get_current_implemented_record db d = none) :
    implemented_count db d = 0 := by
  unfold implemented_count
  exact List.countP_eq_zero.mpr (List.find?_eq_none.mp h)

theorem current_accepted_mem {db : DB} {d : Nat} {ca : DecisionRecord}
    (h : DatabaseService.get_current_accepted_record db d = some ca) :
    ca ∈ db.records ∧ isAcceptedIn d ca := by
  exact ⟨List.mem_of_find?_eq_some h, List.find?_some h⟩

theorem current_implemented_mem {db : DB} {d : Nat} {ci : DecisionRecord}
    (h : DatabaseService.get_current_implemented_record db d = some ci) :
    ci ∈ db.records ∧ isImplementedIn d ci := by
  exact ⟨List.mem_of_find?_eq_some h, List.find?_some h⟩

theorem handleA_ok_shape {db : DB} {rid d : Nat} {auto : Bool}
    {res : DB × List Nat}
    (h : DecisionService.handle_accepted_conflict_block db rid d auto = .ok res) :
    (res = (db, []) ∧
      (DatabaseService.get_current_accepted_record db d = none ∨
        ∃ ca, DatabaseService.get_current_accepted_record db d = some ca ∧
          ca.id = rid)) ∨
    (∃ ca, DatabaseService.get_current_accepted_record db d = some ca ∧
      ca.id ≠ rid ∧ auto = true ∧ res = (cascadeRejectDB db rid ca, [ca.id])) := by
  unfold DecisionService.handle_accepted_conflict_block at h
  cases hca : DatabaseService.get_current_accepted_record db d with
  | none =>
    rw [hca] at h
    simp only [Except.ok.injEq] at h
    exact Or.inl ⟨h.symm, Or.inl rfl⟩
  | some ca =>
    rw [hca] at h
    by_cases hid : ca.id = rid
    · simp only [hid, ne_eq, not_true_eq_false, if_false, ite_false,
        Except.ok.injEq] at h
      exact Or.inl ⟨h.symm, Or.inr ⟨ca, rfl, hid⟩⟩
    · simp only [ne_eq, hid, not_false_eq_true, if_true, ite_true] at h
      cases auto with
      | false => simp at h
      | true =>
        simp only [if_true, Except.ok.injEq] at h
        refine Or.inr ⟨ca, rfl, hid, rfl, ?_⟩
        rw [← h]
        rfl

theorem handleA_error_shape {db : DB} {rid d : Nat} {auto : Bool}
    {e : Err × DB}
    (h : DecisionService.handle_accepted_conflict_block db rid d auto = .error e) :
    e = (.conflict, db) ∧ auto = false ∧
      ∃ ca, DatabaseService.get_current_accepted_record db d = some ca ∧
        ca.id ≠ rid := by
  unfold DecisionService.handle_accepted_conflict_block at h
  cases hca : DatabaseService.get_current_accepted_record db d with
  | none => rw [hca] at h; simp at h
  | some ca =>
    rw [hca] at h
    by_cases hid : ca.id = rid
    · simp [hid] at h
    · simp only [ne_eq, hid, not_false_eq_true, if_true, ite_true] at h
      cases auto with
      | true => simp at h
      | false =>
        rw [if_neg Bool.false_ne_true] at h
        simp only [Except.error.injEq] at h
        exact ⟨h.symm, rfl, ca, rfl, hid⟩

theorem handleI_ok_shape {db : DB} {rid d : Nat} {auto : Bool}
    {res : DB × List Nat}
    (h : DecisionService.handle_implemented_conflict_block db rid d auto = .ok res) :
    (res = (db, []) ∧
      (DatabaseService.get_current_implemented_record db d = none ∨
        ∃ ci, DatabaseService.get_current_implemented_record db d = some ci ∧
          ci.id = rid)) ∨
    (∃ ci, DatabaseService.get_current_implemented_record db d = some ci ∧
      ci.id ≠ rid ∧ auto = true ∧
      res = (cascadeDeprecateDB db rid ci, [ci.id])) := by
  unfold DecisionService.handle_implemented_conflict_block at h
  cases hci : DatabaseService.get_current_implemented_record db d with
  | none =>
    rw [hci] at h
    simp only [Except.ok.injEq] at h
    exact Or.inl ⟨h.symm, Or.inl rfl⟩
  | some ci =>
    rw [hci] at h
    by_cases hid : ci.id = rid
    · simp only [hid, ne_eq, not_true_eq_false, if_false, ite_false,
        Except.ok.injEq] at h
      exact Or.inl ⟨h.symm, Or.inr ⟨ci, rfl, hid⟩⟩
    · simp only [ne_eq, hid, not_false_eq_true, if_true, ite_true] at h
      cases auto with
      | false => simp at h
      | true =>
        simp only [if_true, Except.ok.injEq] at h
        refine Or.inr ⟨ci, rfl, hid, rfl, ?_⟩
        rw [← h]
        rfl

theorem handleI_error_shape {db : DB} {rid d : Nat} {auto : Bool}
    {e : Err × DB}
    (h : DecisionService.handle_implemented_conflict_block db rid d auto = .error e) :
    e = (.conflict, db) ∧ auto = false ∧
      ∃ ci, DatabaseService.get_current_implemented_record db d = some ci ∧
        ci.id ≠ rid := by
  unfold DecisionService.handle_implemented_conflict_block at h
  cases hci : DatabaseService.get_current_implemented_record db d with
  | none => rw [hci] at h; simp at h
  | some ci =>
    rw [hci] at h
    by_cases hid : ci.id = rid
    · simp [hid] at h
    · simp only [ne_eq, hid, not_false_eq_true, if_true, ite_true] at h
      cases auto with
      | true => simp at h
      | false =>
        rw [if_neg Bool.false_ne_true] at h
        simp only [Except.error.injEq] at h
        exact ⟨h.symm, rfl, ci, rfl, hid⟩

theorem handleAonI_shape {db : DB} {rid d : Nat} {auto : Bool}
    {res : DB × List Nat}
    (h : DecisionService.handle_accepted_on_implement_block db rid d auto = res) :
    (res = (db, []) ∧
      (DatabaseService.get_current_accepted_record db d = none ∨
        auto = false ∨
        ∃ ca, DatabaseService.get_current_accepted_record db d = some ca ∧
          ca.id = rid)) ∨
    (∃ ca, DatabaseService.get_current_accepted_record db d = some ca ∧
      ca.id ≠ rid ∧ auto = true ∧
      res = (cascadeDeprecateDB db rid ca, [ca.id])) := by
  unfold DecisionService.handle_accepted_on_implement_block at h
  cases hca : DatabaseService.get_current_accepted_record db d with
  | none =>
    rw [hca] at h
    exact Or.inl ⟨h.symm, Or.inl rfl⟩
  | some ca =>
    rw [hca] at h
    by_cases hid : ca.id = rid
    · simp only [hid, ne_eq, not_true_eq_false, if_false, ite_false] at h
      exact Or.inl ⟨h.symm, Or.inr (Or.inr ⟨ca, rfl, hid⟩)⟩
    · simp only [ne_eq, hid, not_false_eq_true, if_true, ite_true] at h
      cases auto with
      | false =>
        rw [if_neg Bool.false_ne_true] at h
        exact Or.inl ⟨h.symm, Or.inr (Or.inl rfl)⟩
      | true =>
        rw [if_pos rfl] at h
        refine Or.inr ⟨ca, rfl, hid, rfl, ?_⟩
        rw [← h]
        rfl

theorem find?_map_updStatusFn_ne {rs : List DecisionRecord} {i j : Nat}
    {r : DecisionRecord} (h : rs.find? (fun x => x.id == i) = some r)
    (hne : r.id ≠ j) (st : DecisionRecordStatus) :
    (rs.map (updStatusFn j st)).find? (fun x => x.id == i) = some r := by
  rw [find?_id_map (updStatusFn_id j st), h]
  simp [updStatusFn_of_ne j st hne]

theorem find?_map_updStatusFn_self {rs : List DecisionRecord} {i : Nat}
    {r : DecisionRecord} (h : rs.find? (fun x => x.id == i) = some r)
    (hid : r.id = i) (st : DecisionRecordStatus) :
    (rs.map (updStatusFn i st)).find? (fun x => x.id == i) =
      some { r with status := st } := by
  rw [find?_id_map (updStatusFn_id i st), h]
  simp [updStatusFn, hid]

theorem get_cascadeRejectDB {db : DB} {rid : Nat} {ca : DecisionRecord}
    {i : Nat} {r : DecisionRecord}
    (h : DatabaseService.get_decision_record db i = some r) (hne : r.id ≠ ca.id) :
    DatabaseService.get_decision_record (cascadeRejectDB db rid ca) i = some r := by
  unfold DatabaseService.get_decision_record at *
  exact find?_map_updStatusFn_ne h hne _

theorem get_cascadeDeprecateDB {db : DB} {rid : Nat} {s : DecisionRecord}
    {i : Nat} {r : DecisionRecord}
    (h : DatabaseService.get_decision_record db i = some r) (hne : r.id ≠ s.id) :
    DatabaseService.get_decision_record (cascadeDeprecateDB db rid s) i = some r := by
  unfold DatabaseService.get_decision_record at *
  exact find?_map_updStatusFn_ne h hne _

theorem get_finalizeDB_self {db : DB} {rid : Nat}
    {old ns : DecisionRecordStatus} {reason : Option String}
    {r : DecisionRecord} (h : DatabaseService.get_decision_record db rid = some r)
    (hid : r.id = rid) :
    DatabaseService.get_decision_record (finalizeDB db rid old ns reason) rid =
      some { r with status := ns } := by
  unfold DatabaseService.get_decision_record at *
  exact find?_map_updStatusFn_self h hid ns

theorem finalize_ok_shape {db : DB} {rid : Nat}
    {old ns : DecisionRecordStatus} {reason : Option String} {aff : List Nat}
    {r : DecisionRecord}
    (hr : DatabaseService.get_decision_record db rid = some r) (hid : r.id = rid) :
    DecisionService.finalize_status_change db rid old ns reason aff =
      .ok (finalizeDB db rid old ns reason,
           { record := { r with status := ns }, affected_records := aff }) := by
  have hbridge : DecisionService.finalize_status_change db rid old ns reason aff =
      (match DatabaseService.get_decision_record
          (finalizeDB db rid old ns reason) rid with
       | some u =>
         .ok (finalizeDB db rid old ns reason,
              { record := u, affected_records := aff })
       | none => .error (.notFound, finalizeDB db rid old ns reason)) := rfl
  rw [hbridge, get_finalizeDB_self hr hid]

theorem change_status_ok_shape {db : DB} {rid : Nat} {ns_str : String}
    {reason : Option String} {auto : Bool} {db' : DB} {res : ChangeStatusResult}
    (h : DecisionService.change_record_status db rid ns_str reason auto =
      .ok (db', res)) :
    ∃ r ns, DatabaseService.get_decision_record db rid = some r ∧
      DecisionRecordStatus.ofString ns_str = some ns ∧
      is_valid_transition r.status ns = true ∧
      res.record = { r with status := ns } ∧
      ((ns ≠ .accepted ∧ ns ≠ .implemented ∧
         db' = finalizeDB db rid r.status ns reason ∧
         res.affected_records = []) ∨
       (ns = .accepted ∧
         ((db' = finalizeDB db rid r.status ns reason ∧
            res.affected_records = [] ∧
            (DatabaseService.get_current_accepted_record db r.decision_id = none ∨
              ∃ ca, DatabaseService.get_current_accepted_record db r.decision_id =
                some ca ∧ ca.id = rid)) ∨
          (∃ ca, DatabaseService.get_current_accepted_record db r.decision_id =
              some ca ∧ ca.id ≠ rid ∧ auto = true ∧
            db' = finalizeDB (cascadeRejectDB db rid ca) rid r.status ns reason ∧
            res.affected_records = [ca.id]))) ∨
       (ns = .implemented ∧
         ∃ dbI affI,
           ((dbI = db ∧ affI = ([] : List Nat) ∧
              (DatabaseService.get_current_implemented_record db r.decision_id = none ∨
                ∃ ci, DatabaseService.get_current_implemented_record db r.decision_id =
                  some ci ∧ ci.id = rid)) ∨
            (∃ ci, DatabaseService.get_current_implemented_record db r.decision_id =
                some ci ∧ ci.id ≠ rid ∧ auto = true ∧
              dbI = cascadeDeprecateDB db rid ci ∧ affI = [ci.id])) ∧
           ((db' = finalizeDB dbI rid r.status ns reason ∧
              res.affected_records = affI ∧
              (DatabaseService.get_current_accepted_record dbI r.decision_id = none ∨
                auto = false ∨
                ∃ ca, DatabaseService.get_current_accepted_record dbI r.decision_id =
                  some ca ∧ ca.id = rid)) ∨
            (∃ ca, DatabaseService.get_current_accepted_record dbI r.decision_id =
                some ca ∧ ca.id ≠ rid ∧ auto = true ∧
              db' = finalizeDB (cascadeDeprecateDB dbI rid ca) rid r.status ns reason ∧
              res.affected_records = affI ++ [ca.id])))) := by
  unfold DecisionService.change_record_status at h
  cases hr : DatabaseService.get_decision_record db rid with
  | none => rw [hr] at h; simp at h
  | some r =>
    rw [hr] at h
    simp only [] at h
    have hrid : r.id = rid := (get_decision_record_mem hr).2
    cases hns : DecisionRecordStatus.ofString ns_str with
    | none => rw [hns] at h; simp at h
    | some ns =>
      rw [hns] at h
      simp only [] at h
      by_cases hv : is_valid_transition r.status ns
      · rw [if_pos hv] at h
        refine ⟨r, ns, rfl, rfl, hv, ?_⟩
        by_cases hacc : ns = .accepted
        · subst hacc
          rw [if_pos rfl] at h
          cases hA : DecisionService.handle_accepted_conflict_block db rid
              r.decision_id auto with
          | error eA => rw [hA] at h; simp at h
          | ok pA =>
            obtain ⟨dbA, affA⟩ := pA
            rw [hA] at h
            simp only [reduceCtorEq, reduceIte] at h
            rcases handleA_ok_shape hA with ⟨hpe, hside⟩ | ⟨ca, hca, hne, hauto, hpe⟩
            · obtain ⟨h1, h2⟩ := Prod.mk.injEq .. ▸ hpe
              subst h1
              subst h2
              rw [finalize_ok_shape hr hrid] at h
              simp only [Except.ok.injEq, Prod.mk.injEq] at h
              obtain ⟨hdb, hres⟩ := h
              subst hdb
              subst hres
              exact ⟨rfl, Or.inr (Or.inl ⟨rfl, Or.inl ⟨rfl, rfl, hside⟩⟩)⟩
            · obtain ⟨h1, h2⟩ := Prod.mk.injEq .. ▸ hpe
              subst h1
              subst h2
              have hne' : r.id ≠ ca.id := by rw [hrid]; exact Ne.symm hne
              rw [finalize_ok_shape (get_cascadeRejectDB hr hne') hrid] at h
              simp only [Except.ok.injEq, Prod.mk.injEq] at h
              obtain ⟨hdb, hres⟩ := h
              subst hdb
              subst hres
              exact ⟨rfl, Or.inr (Or.inl ⟨rfl,
                Or.inr ⟨ca, hca, hne, hauto, rfl, by simp⟩⟩)⟩
        · by_cases himp : ns = .implemented
          · subst himp
            rw [if_neg hacc] at h
            simp only [] at h
            simp only [if_true] at h
            cases hI : DecisionService.handle_implemented_conflict_block db rid
                r.decision_id auto with
            | error eI => rw [hI] at h; simp at h
            | ok pI =>
              obtain ⟨dbI, affI⟩ := pI
              rw [hI] at h
              simp only [] at h
              rcases handleAonI_shape
                  (rfl :
                    DecisionService.handle_accepted_on_implement_block dbI rid
                      r.decision_id auto = _) with
                ⟨heq, hside2⟩ | ⟨ca, hca, hne, hauto, heq⟩ <;>
                rw [heq] at h <;> simp only [] at h
              · rcases handleI_ok_shape hI with ⟨hpe, hside⟩ | ⟨ci, hci, hneI, hautoI, hpe⟩
                · obtain ⟨h1, h2⟩ := Prod.mk.injEq .. ▸ hpe
                  subst h1
                  subst h2
                  rw [finalize_ok_shape hr hrid] at h
                  simp only [Except.ok.injEq, Prod.mk.injEq] at h
                  obtain ⟨hdb, hres⟩ := h
                  subst hdb
                  subst hres
                  exact ⟨rfl, Or.inr (Or.inr ⟨rfl, dbI, [],
                    Or.inl ⟨rfl, rfl, hside⟩, Or.inl ⟨rfl, by simp, hside2⟩⟩)⟩
                · obtain ⟨h1, h2⟩ := Prod.mk.injEq .. ▸ hpe
                  subst h1
                  subst h2
                  have hne' : r.id ≠ ci.id := by rw [hrid]; exact Ne.symm hneI
                  rw [finalize_ok_shape (get_cascadeDeprecateDB hr hne') hrid] at h
                  simp only [Except.ok.injEq, Prod.mk.injEq] at h
                  obtain ⟨hdb, hres⟩ := h
                  subst hdb
                  subst hres
                  exact ⟨rfl, Or.inr (Or.inr ⟨rfl, cascadeDeprecateDB db rid ci, [ci.id],
                    Or.inr ⟨ci, hci, hneI, hautoI, rfl, rfl⟩,
                    Or.inl ⟨rfl, by simp, hside2⟩⟩)⟩
              · rcases handleI_ok_shape hI with ⟨hpe, hside⟩ | ⟨ci, hci, hneI, hautoI, hpe⟩
                · obtain ⟨h1, h2⟩ := Prod.mk.injEq .. ▸ hpe
                  subst h1
                  subst h2
                  have hne' : r.id ≠ ca.id := by rw [hrid]; exact Ne.symm hne
                  rw [finalize_ok_shape (get_cascadeDeprecateDB hr hne') hrid] at h
                  simp only [Except.ok.injEq, Prod.mk.injEq] at h
                  obtain ⟨hdb, hres⟩ := h
                  subst hdb
                  subst hres
                  exact ⟨rfl, Or.inr (Or.inr ⟨rfl, dbI, [],
                    Or.inl ⟨rfl, rfl, hside⟩,
                    Or.inr ⟨ca, hca, hne, hauto, rfl, by simp⟩⟩)⟩
                · obtain ⟨h1, h2⟩ := Prod.mk.injEq .. ▸ hpe
                  subst h1
                  subst h2
                  have hneI' : r.id ≠ ci.id := by rw [hrid]; exact Ne.symm hneI
                  have hne' : r.id ≠ ca.id := by rw [hrid]; exact Ne.symm hne
                  rw [finalize_ok_shape
                    (get_cascadeDeprecateDB (get_cascadeDeprecateDB hr hneI') hne')
                    hrid] at h
                  simp only [Except.ok.injEq, Prod.mk.injEq] at h
                  obtain ⟨hdb, hres⟩ := h
                  subst hdb
                  subst hres
                  exact ⟨rfl, Or.inr (Or.inr ⟨rfl, cascadeDeprecateDB db rid ci, [ci.id],
                    Or.inr ⟨ci, hci, hneI, hautoI, rfl, rfl⟩,
                    Or.inr ⟨ca, hca, hne, hauto, rfl, rfl⟩⟩)⟩
          · rw [if_neg hacc] at h
            simp only [] at h
            rw [if_neg himp] at h
            simp only [] at h
            rw [finalize_ok_shape hr hrid] at h
            simp only [Except.ok.injEq, Prod.mk.injEq] at h
            obtain ⟨hdb, hres⟩ := h
            subst hdb
            subst hres
            exact ⟨rfl, Or.inl ⟨hacc, himp, rfl, rfl⟩⟩
      · rw [if_neg hv] at h; simp at h

theorem change_status_error_shape {db : DB} {rid : Nat} {ns_str : String}
    {reason : Option String} {auto : Bool} {e : Err} {dbe : DB}
    (h : DecisionService.change_record_status db rid ns_str reason auto =
      .error (e, dbe)) :
    dbe = db ∧
    ((e = .notFound ∧ DatabaseService.get_decision_record db rid = none) ∨
     (∃ r, DatabaseService.get_decision_record db rid = some r ∧
       ((e = .invalidStatus ∧ DecisionRecordStatus.ofString ns_str = none) ∨
        (∃ ns, DecisionRecordStatus.ofString ns_str = some ns ∧
          ((e = .invalidTransition ∧ is_valid_transition r.status ns = false) ∨
           (e = .conflict ∧ is_valid_transition r.status ns = true ∧
             auto = false ∧
             ((ns = .accepted ∧ ∃ ca,
                DatabaseService.get_current_accepted_record db r.decision_id =
                  some ca ∧ ca.id ≠ rid) ∨
              (ns = .implemented ∧ ∃ ci,
                DatabaseService.get_current_implemented_record db r.decision_id =
                  some ci ∧ ci.id ≠ rid)))))))) := by
  unfold DecisionService.change_record_status at h
  cases hr : DatabaseService.get_decision_record db rid with
  | none =>
    rw [hr] at h
    simp only [Except.error.injEq, Prod.mk.injEq] at h
    obtain ⟨he, hdb⟩ := h
    exact ⟨hdb.symm, Or.inl ⟨he.symm, rfl⟩⟩
  | some r =>
    rw [hr] at h
    simp only [] at h
    have hrid : r.id = rid := (get_decision_record_mem hr).2
    cases hns : DecisionRecordStatus.ofString ns_str with
    | none =>
      rw [hns] at h
      simp only [Except.error.injEq, Prod.mk.injEq] at h
      obtain ⟨he, hdb⟩ := h
      exact ⟨hdb.symm, Or.inr ⟨r, rfl, Or.inl ⟨he.symm, rfl⟩⟩⟩
    | some ns =>
      rw [hns] at h
      simp only [] at h
      by_cases hv : is_valid_transition r.status ns
      · rw [if_pos hv] at h
        by_cases hacc : ns = .accepted
        · subst hacc
          rw [if_pos rfl] at h
          cases hA : DecisionService.handle_accepted_conflict_block db rid
              r.decision_id auto with
          | error eA =>
            rw [hA] at h
            simp only [reduceCtorEq, reduceIte, Except.error.injEq] at h
            obtain ⟨hec, hauto, ca, hca, hne⟩ := handleA_error_shape hA
            rw [h] at hec
            simp only [Prod.mk.injEq] at hec
            exact ⟨hec.2, Or.inr ⟨r, rfl, Or.inr ⟨_, rfl, Or.inr
              ⟨hec.1, hv, hauto, Or.inl ⟨rfl, ca, hca, hne⟩⟩⟩⟩⟩
          | ok pA =>
            obtain ⟨dbA, affA⟩ := pA
            rw [hA] at h
            simp only [reduceCtorEq, reduceIte] at h
            rcases handleA_ok_shape hA with ⟨hpe, hside⟩ | ⟨ca, hca, hne, hauto, hpe⟩
            · obtain ⟨h1, h2⟩ := Prod.mk.injEq .. ▸ hpe
              subst h2
              rw [h1] at h
              rw [finalize_ok_shape hr hrid] at h
              simp at h
            · obtain ⟨h1, h2⟩ := Prod.mk.injEq .. ▸ hpe
              subst h2
              have hne' : r.id ≠ ca.id := by rw [hrid]; exact Ne.symm hne
              rw [h1] at h
              rw [finalize_ok_shape (get_cascadeRejectDB hr hne') hrid] at h
              simp at h
        · by_cases himp : ns = .implemented
          · subst himp
            rw [if_neg hacc] at h
            simp only [] at h
            simp only [if_true] at h
            cases hI : DecisionService.handle_implemented_conflict_block db rid
                r.decision_id auto with
            | error eI =>
              rw [hI] at h
              simp only [Except.error.injEq] at h
              obtain ⟨hec, hauto, ci, hci, hne⟩ := handleI_error_shape hI
              rw [h] at hec
              simp only [Prod.mk.injEq] at hec
              exact ⟨hec.2, Or.inr ⟨r, rfl, Or.inr ⟨_, rfl, Or.inr
                ⟨hec.1, hv, hauto, Or.inr ⟨rfl, ci, hci, hne⟩⟩⟩⟩⟩
            | ok pI =>
              obtain ⟨dbI, affI⟩ := pI
              rw [hI] at h
              simp only [] at h
              rcases handleAonI_shape
                  (rfl :
                    DecisionService.handle_accepted_on_implement_block dbI rid
                      r.decision_id auto = _) with
                ⟨heq, hside2⟩ | ⟨ca, hca, hne, hauto, heq⟩ <;>
                rw [heq] at h <;> simp only [] at h
              · rcases handleI_ok_shape hI with ⟨hpe, hside⟩ |
                  ⟨ci, hci, hneI, hautoI, hpe⟩
                · obtain ⟨h1, h2⟩ := Prod.mk.injEq .. ▸ hpe
                  subst h2
                  rw [h1] at h
                  rw [finalize_ok_shape hr hrid] at h
                  simp at h
                · obtain ⟨h1, h2⟩ := Prod.mk.injEq .. ▸ hpe
                  subst h2
                  have hne' : r.id ≠ ci.id := by rw [hrid]; exact Ne.symm hneI
                  rw [h1] at h
                  rw [finalize_ok_shape (get_cascadeDeprecateDB hr hne') hrid] at h
                  simp at h
              · rcases handleI_ok_shape hI with ⟨hpe, hside⟩ |
                  ⟨ci, hci, hneI, hautoI, hpe⟩
                · obtain ⟨h1, h2⟩ := Prod.mk.injEq .. ▸ hpe
                  subst h2
                  have hne' : r.id ≠ ca.id := by rw [hrid]; exact Ne.symm hne
                  rw [h1] at h hca
                  rw [finalize_ok_shape (get_cascadeDeprecateDB hr hne') hrid] at h
                  simp at h
                · obtain ⟨h1, h2⟩ := Prod.mk.injEq .. ▸ hpe
                  subst h2
                  have hneI' : r.id ≠ ci.id := by rw [hrid]; exact Ne.symm hneI
                  have hne' : r.id ≠ ca.id := by rw [hrid]; exact Ne.symm hne
                  rw [h1] at h hca
                  rw [finalize_ok_shape
                    (get_cascadeDeprecateDB (get_cascadeDeprecateDB hr hneI') hne')
                    hrid] at h
                  simp at h
          · rw [if_neg hacc] at h
            simp only [] at h
            rw [if_neg himp] at h
            simp only [] at h
            rw [finalize_ok_shape hr hrid] at h
            simp at h
      · rw [if_neg hv] at h
        simp only [Except.error.injEq, Prod.mk.injEq] at h
        obtain ⟨he, hdb⟩ := h
        exact ⟨hdb.symm, Or.inr ⟨r, rfl, Or.inr ⟨ns, rfl, Or.inl
          ⟨he.symm, by simpa using hv⟩⟩⟩⟩

theorem apply_record_data_all (c d : Content) :
    apply_record_data c (updatable_fields.map (fun f => (f, d.get f))) = d := by
  obtain ⟨d1, d2, d3, d4, d5, d6, d7, d8, d9⟩ := d
  rfl

theorem create_record_version_records (db : DB) (v : RecordVersion) :
    (DatabaseService.create_record_version db v).1.records = db.records := by
  unfold DatabaseService.create_record_version
  split <;> rfl

theorem create_record_version_decisions (db : DB) (v : RecordVersion) :
    (DatabaseService.create_record_version db v).1.decisions = db.decisions := by
  unfold DatabaseService.create_record_version
  split <;> rfl

theorem create_record_version_nextId (db : DB) (v : RecordVersion) :
    (DatabaseService.create_record_version db v).1.nextId = db.nextId := by
  unfold DatabaseService.create_record_version
  split <;> rfl

theorem create_record_version_versions (db : DB) (v : RecordVersion) :
    (DatabaseService.create_record_version db v).1.versions = db.versions ∨
      (DatabaseService.create_record_version db v).1.versions =
        db.versions ++ [v] := by
  unfold DatabaseService.create_record_version
  split
  · exact Or.inl rfl
  · exact Or.inr rfl

theorem create_record_version_versions_abs (db : DB) (v : RecordVersion) :
    (DatabaseService.create_record_version db v).1.versions = db.versions ∨
      (DatabaseService.get_record_version_by_number db v.decision_record_id
          v.version = none ∧
        (DatabaseService.create_record_version db v).1.versions =
          db.versions ++ [v]) := by
  unfold DatabaseService.create_record_version
  split
  · exact Or.inl rfl
  · next heq => exact Or.inr ⟨heq, rfl⟩

theorem get_decision_record_eq_of_records {db db' : DB} {rid : Nat}
    (h : db'.records = db.records) :
    DatabaseService.get_decision_record db' rid =
      DatabaseService.get_decision_record db rid := by
  unfold DatabaseService.get_decision_record
  rw [h]

theorem db_update_shape {db : DB} {rid : Nat}
    {data : List (ContentField × Option String)} {version : Option Nat}
    {r : DecisionRecord}
    (hr : DatabaseService.get_decision_record db rid = some r) :
    DatabaseService.update_decision_record db rid data version =
      ({ db with records := db.records.map (updContentFn rid data version) },
       some (updContentFn rid data version r)) := by
  have hget : DatabaseService.get_decision_record
      { db with records := db.records.map (updContentFn rid data version) } rid =
      some (updContentFn rid data version r) := by
    unfold DatabaseService.get_decision_record at hr ⊢
    rw [show ({ db with
          records := db.records.map (updContentFn rid data version) } : DB).records =
        db.records.map (updContentFn rid data version) from rfl]
    rw [find?_id_map (updContentFn_id rid data version), hr]
    rfl
  show ({ db with records := db.records.map (updContentFn rid data version) },
      DatabaseService.get_decision_record
        { db with records := db.records.map (updContentFn rid data version) } rid) = _
  rw [hget]

theorem db_update_fst (db : DB) (rid : Nat)
    (data : List (ContentField × Option String)) (version : Option Nat) :
    (DatabaseService.update_decision_record db rid data version).1 =
      { db with records := db.records.map (updContentFn rid data version) } := rfl

theorem db_update_snd {db : DB} {rid : Nat}
    {data : List (ContentField × Option String)} {version : Option Nat}
    {r : DecisionRecord}
    (hr : DatabaseService.get_decision_record db rid = some r) :
    (DatabaseService.update_decision_record db rid data version).2 =
      some (updContentFn rid data version r) := by
  rw [db_update_shape hr]

theorem update_error_db {db : DB} {rid : Nat} {p : Content} {e : Err} {dbe : DB}
    (h : DecisionService.update_decision_record db rid p = .error (e, dbe)) :
    e = .notFound ∧ dbe = db := by
  unfold DecisionService.update_decision_record at h
  cases hr : DatabaseService.get_decision_record db rid with
  | none =>
    rw [hr] at h
    simp only [Except.error.injEq, Prod.mk.injEq] at h
    exact ⟨h.1.symm, h.2.symm⟩
  | some r =>
    rw [hr] at h
    simp only [] at h
    split at h
    · simp at h
    · split at h
      · simp at h
      · cases hsnap : DatabaseService.get_record_version_by_number db rid
            r.version with
        | some w =>
          rw [hsnap] at h
          simp only [] at h
          rw [db_update_shape hr] at h
          simp at h
        | none =>
          rw [hsnap] at h
          simp only [DB.fresh] at h
          rw [db_update_shape (show DatabaseService.get_decision_record
              (DatabaseService.create_record_version
                { db with nextId := db.nextId + 1 }
                { id := db.nextId, decision_record_id := rid,
                  version := r.version,
                  snapshot := { record_id := r.id, decision_id := r.decision_id,
                                content := r.content, status := r.status,
                                version := r.version } }).1 rid = some r from by
            rw [get_decision_record_eq_of_records
              ((create_record_version_records _ _).trans rfl)]
            exact hr)] at h
          simp at h

theorem update_ok_shape {db : DB} {rid : Nat} {p : Content} {db' : DB}
    {res : DecisionRecord}
    (h : DecisionService.update_decision_record db rid p = .ok (db', res)) :
    ∃ r, DatabaseService.get_decision_record db rid = some r ∧
      ((db' = db ∧ res = r) ∨
       (res = updContentFn rid (payload_record_data p) (some (r.version + 1)) r ∧
        db'.records = db.records.map
          (updContentFn rid (payload_record_data p) (some (r.version + 1))) ∧
        db'.status_history = db.status_history ∧
        db'.relationships = db.relationships ∧
        db'.decisions = db.decisions ∧
        db.nextId ≤ db'.nextId ∧
        (db'.versions = db.versions ∨
          ∃ w, w.decision_record_id = rid ∧ w.version = r.version ∧
            DatabaseService.get_record_version_by_number db rid r.version = none ∧
            db'.versions = db.versions ++ [w]))) := by
  unfold DecisionService.update_decision_record at h
  cases hr : DatabaseService.get_decision_record db rid with
  | none => rw [hr] at h; simp at h
  | some r =>
    rw [hr] at h
    simp only [] at h
    refine ⟨r, rfl, ?_⟩
    split at h
    · simp only [Except.ok.injEq, Prod.mk.injEq] at h
      exact Or.inl ⟨h.1.symm, h.2.symm⟩
    · split at h
      · simp only [Except.ok.injEq, Prod.mk.injEq] at h
        exact Or.inl ⟨h.1.symm, h.2.symm⟩
      · cases hsnap : DatabaseService.get_record_version_by_number db rid
            r.version with
        | some w =>
          rw [hsnap] at h
          simp only [DB.fresh] at h
          rw [db_update_shape hr] at h
          simp only [Except.ok.injEq, Prod.mk.injEq] at h
          obtain ⟨hdb, hres⟩ := h
          subst hdb
          subst hres
          exact Or.inr ⟨rfl, rfl, rfl, rfl, rfl, Nat.le_succ db.nextId, Or.inl rfl⟩
        | none =>
          rw [hsnap] at h
          simp only [DB.fresh] at h
          rw [create_record_version_insert (show
            DatabaseService.get_record_version_by_number
              { db with nextId := db.nextId + 1 } rid r.version = none
            from hsnap)] at h
          simp only [] at h
          rw [db_update_shape (show DatabaseService.get_decision_record
              (⟨db.decisions, db.records, db.status_history, db.relationships,
                db.versions ++
                  [{ id := db.nextId, decision_record_id := rid,
                     version := r.version,
                     snapshot := { record_id := r.id,
                                   decision_id := r.decision_id,
                                   content := r.content, status := r.status,
                                   version := r.version } }],
                db.changelog, db.nextId + 1⟩ : DB) rid =
              some r from hr)] at h
          simp only [Except.ok.injEq, Prod.mk.injEq] at h
          obtain ⟨hdb, hres⟩ := h
          subst hdb
          subst hres
          exact Or.inr ⟨rfl, rfl, rfl, rfl, rfl, Nat.le_add_right db.nextId 2,
            Or.inr ⟨_, rfl, rfl, rfl, rfl⟩⟩

theorem update_noop {db : DB} {rid : Nat} {p : Content} {r : DecisionRecord}
    (hr : DatabaseService.get_decision_record db rid = some r)
    (hsame : ∀ f, p.get f = none ∨ p.get f = r.content.get f) :
    DecisionService.update_decision_record db rid p = .ok (db, r) := by
  unfold DecisionService.update_decision_record
  rw [hr]
  simp only []
  by_cases hempty : (updatable_fields.filterMap (fun f =>
      match p.get f with
      | some v => some (f, some v)
      | none => none)).isEmpty
  · rw [if_pos hempty]
  · rw [if_neg hempty]
    have hchanges : (updatable_fields.filterMap (fun f =>
        match p.get f with
        | some v => some (f, some v)
        | none => none)).filterMap
          (fun fv =>
            if r.content.get fv.1 ≠ fv.2 then
              some ({ field := fv.1, old := r.content.get fv.1,
                      new := fv.2 } : FieldChange)
            else none) = [] := by
      rw [List.filterMap_eq_nil_iff]
      intro fv hfv
      obtain ⟨f, hf, hmk⟩ := List.mem_filterMap.mp hfv
      rcases hpf : p.get f with _ | v
      · rw [hpf] at hmk
        simp at hmk
      · rw [hpf] at hmk
        simp only [Option.some.injEq] at hmk
        subst hmk
        have hval : r.content.get f = some v := by
          rcases hsame f with hnone | hsome
          · rw [hpf] at hnone; simp at hnone
          · rw [← hsome, hpf]
        simp [hval]
    rw [if_pos (by rw [hchanges]; rfl)]

theorem revert_ok_shape {db : DB} {rid version : Nat} {reason : Option String}
    {r : DecisionRecord} {vrec : RecordVersion}
    (hr : DatabaseService.get_decision_record db rid = some r)
    (hv : DatabaseService.get_record_version_by_number db rid version = some vrec) :
    ∃ db', DecisionService.revert_to_version db rid version reason =
        .ok (db',
          { r with content := vrec.snapshot.content, version := r.version + 1 }) ∧
      db'.records = db.records.map (updContentFn rid
        (updatable_fields.map (fun f => (f, vrec.snapshot.content.get f)))
        (some (r.version + 1))) ∧
      db'.status_history = db.status_history ∧
      db'.relationships = db.relationships ∧
      db'.decisions = db.decisions ∧
      db.nextId ≤ db'.nextId ∧
      (db'.versions = db.versions ∨
        ∃ w, w.decision_record_id = rid ∧ w.version = r.version ∧
          DatabaseService.get_record_version_by_number db rid r.version = none ∧
          db'.versions = db.versions ++ [w]) := by
  have hrid : r.id = rid := (get_decision_record_mem hr).2
  have hfr : updContentFn rid
      (updatable_fields.map (fun f => (f, vrec.snapshot.content.get f)))
      (some (r.version + 1)) r =
      { r with content := vrec.snapshot.content, version := r.version + 1 } := by
    simp [updContentFn, hrid, apply_record_data_all]

  unfold DecisionService.revert_to_version
  rw [show DecisionService.get_record_at_version db rid version =
      some vrec.snapshot from by
    unfold DecisionService.get_record_at_version
    rw [hv]
    rfl]
  rw [hr]
  simp only []
  cases hsnap : DatabaseService.get_record_version_by_number db rid
      r.version with
  | some w =>
    rw [db_update_shape hr]
    simp only [DB.fresh]
    rw [hfr]
    refine ⟨_, rfl, ?_, ?_, ?_, ?_, ?_, ?_⟩
    · rfl
    · rfl
    · rfl
    · rfl
    · exact Nat.le_succ db.nextId
    · exact Or.inl rfl
  | none =>
    simp only [DB.fresh]
    rw [create_record_version_insert (show
      DatabaseService.get_record_version_by_number
        { db with nextId := db.nextId + 1 } rid r.version = none
      from hsnap)]
    simp only []
    rw [db_update_snd (show DatabaseService.get_decision_record
        (⟨db.decisions, db.records, db.status_history, db.relationships,
          db.versions ++
            [{ id := db.nextId, decision_record_id := rid,
               version := r.version,
               snapshot := { record_id := r.id,
                             decision_id := r.decision_id,
                             content := r.content, status := r.status,
                             version := r.version } }],
          db.changelog, db.nextId + 1⟩ : DB) rid =
        some r from hr), db_update_fst]
    dsimp only
    rw [hfr]
    refine ⟨_, rfl, ?_, ?_, ?_, ?_, ?_, ?_⟩
    · rfl
    · rfl
    · rfl
    · rfl
    · exact Nat.le_add_right db.nextId 2
    · exact Or.inr ⟨_, rfl, rfl, trivial, rfl⟩

theorem revert_error_db {db : DB} {rid version : Nat} {reason : Option String}
    {e : Err} {dbe : DB}
    (h : DecisionService.revert_to_version db rid version reason =
      .error (e, dbe)) :
    e = .notFound ∧ dbe = db := by
  cases hat : DecisionService.get_record_at_version db rid version with
  | none =>
    unfold DecisionService.revert_to_version at h
    rw [hat] at h
    simp only [Except.error.injEq, Prod.mk.injEq] at h
    exact ⟨h.1.symm, h.2.symm⟩
  | some snap =>
    cases hrr : DatabaseService.get_decision_record db rid with
    | none =>
      unfold DecisionService.revert_to_version at h
      rw [hat, hrr] at h
      simp only [Except.error.injEq, Prod.mk.injEq] at h
      exact ⟨h.1.symm, h.2.symm⟩
    | some r =>
      have hvv : ∃ vrec, DatabaseService.get_record_version_by_number db rid
          version = some vrec := by
        unfold DecisionService.get_record_at_version at hat
        cases hw : DatabaseService.get_record_version_by_number db rid
            version with
        | none => rw [hw] at hat; simp at hat
        | some w => exact ⟨w, rfl⟩
      obtain ⟨vrec, hv⟩ := hvv
      obtain ⟨db', heq, _⟩ := revert_ok_shape hrr hv
      rw [heq] at h
      simp at h

theorem create_error_shape {db : DB} {d : Nat} {c : Content} {st : Option String}
    {e : Err} {dbe : DB}
    (h : DecisionService.create_decision_record db d c st = .error (e, dbe)) :
    dbe = db ∧ (e = .notFound ∨ e = .invalidStatus) := by
  unfold DecisionService.create_decision_record at h
  by_cases hd : db.decisions.contains d
  · rw [if_pos hd] at h
    cases st with
    | none => simp at h
    | some s =>
      simp only [] at h
      by_cases hs : s ≠ ""
      · rw [if_pos hs] at h
        cases hos : DecisionRecordStatus.ofString s with
        | none =>
          rw [hos] at h
          simp only [] at h
          simp only [Except.error.injEq, Prod.mk.injEq] at h
          exact ⟨h.2.symm, Or.inr h.1.symm⟩
        | some stv =>
          rw [hos] at h
          simp at h
      · rw [if_neg hs] at h
        simp at h
  · rw [if_neg hd] at h
    simp only [Except.error.injEq, Prod.mk.injEq] at h
    exact ⟨h.2.symm, Or.inl h.1.symm⟩

theorem create_ok_shape {db : DB} {d : Nat} {c : Content} {st : Option String}
    {db' : DB} {rec : DecisionRecord}
    (h : DecisionService.create_decision_record db d c st = .ok (db', rec)) :
    db.decisions.contains d = true ∧
    rec.id = db.nextId ∧ rec.decision_id = d ∧ rec.content = c ∧
    rec.version = 1 ∧
    db'.records = db.records ++ [rec] ∧
    db'.decisions = db.decisions ∧
    db'.nextId = db.nextId + 3 ∧
    db'.relationships = db.relationships ∧
    (db'.versions = db.versions ∨
      ∃ w : RecordVersion, w.decision_record_id = rec.id ∧ w.version = 1 ∧
        DatabaseService.get_record_version_by_number db rec.id 1 = none ∧
        db'.versions = db.versions ++ [w]) ∧
    ((st = none ∨ st = some "") → rec.status = .proposed) ∧
    (∀ s, st = some s → s ≠ "" →
      DecisionRecordStatus.ofString s = some rec.status) := by
  unfold DecisionService.create_decision_record at h
  by_cases hd : db.decisions.contains d
  · rw [if_pos hd] at h
    refine ⟨hd, ?_⟩
    cases st with
    | none =>
      simp only [] at h
      simp only [Except.ok.injEq, Prod.mk.injEq] at h
      obtain ⟨hdb, hrec⟩ := h
      subst hdb
      subst hrec
      refine ⟨rfl, rfl, rfl, rfl, ?_, ?_, ?_, ?_, ?_, fun _ => rfl,
        fun s hs _ => by simp at hs⟩
      · rw [create_record_version_records]
        exact rfl
      · rw [create_record_version_decisions]
        exact rfl
      · rw [create_record_version_nextId]
        exact rfl
      · unfold DatabaseService.create_record_version
        split <;> rfl
      · rcases create_record_version_versions_abs _ _ with hv | ⟨habs, hv⟩
        · rw [hv]
          exact Or.inl rfl
        · rw [hv]
          refine Or.inr ⟨_, ?_, ?_, ?_, rfl⟩
          · rfl
          · rfl
          · exact habs
    | some s =>
      simp only [] at h
      by_cases hs : s ≠ ""
      · rw [if_pos hs] at h
        cases hos : DecisionRecordStatus.ofString s with
        | none => rw [hos] at h; simp at h
        | some stv =>
          rw [hos] at h
          simp only [] at h
          simp only [Except.ok.injEq, Prod.mk.injEq] at h
          obtain ⟨hdb, hrec⟩ := h
          subst hdb
          subst hrec
          refine ⟨rfl, rfl, rfl, rfl, ?_, ?_, ?_, ?_, ?_, ?_, ?_⟩
          · rw [create_record_version_records]
            exact rfl
          · rw [create_record_version_decisions]
            exact rfl
          · rw [create_record_version_nextId]
            exact rfl
          · unfold DatabaseService.create_record_version
            split <;> rfl
          · rcases create_record_version_versions_abs _ _ with hv | ⟨habs, hv⟩
            · rw [hv]
              exact Or.inl rfl
            · rw [hv]
              refine Or.inr ⟨_, ?_, ?_, ?_, rfl⟩
              · rfl
              · rfl
              · exact habs
          · intro hc
            rcases hc with hc | hc
            · simp at hc
            · rw [Option.some.injEq] at hc
              subst hc
              simp at hs
          · intro s' hs' _
            rw [Option.some.injEq] at hs'
            subst hs'
            exact hos
      · rw [if_neg hs] at h
        simp only [not_not] at hs
        subst hs
        simp only [] at h
        simp only [Except.ok.injEq, Prod.mk.injEq] at h
        obtain ⟨hdb, hrec⟩ := h
        subst hdb
        subst hrec
        refine ⟨rfl, rfl, rfl, rfl, ?_, ?_, ?_, ?_, ?_, fun _ => rfl,
          fun s' hs' hne => by rw [Option.some.injEq] at hs'; subst hs'; simp at hne⟩
        · rw [create_record_version_records]
          exact rfl
        · rw [create_record_version_decisions]
          exact rfl
        · rw [create_record_version_nextId]
          exact rfl
        · unfold DatabaseService.create_record_version
          split <;> rfl
        · rcases create_record_version_versions_abs _ _ with hv | ⟨habs, hv⟩
          · rw [hv]
            exact Or.inl rfl
          · rw [hv]
            refine Or.inr ⟨_, ?_, ?_, ?_, rfl⟩
            · rfl
            · rfl
            · exact habs
  · rw [if_neg hd] at h
    simp at h

theorem updContentFn_all {r : DecisionRecord} {rid : Nat} (hrid : r.id = rid)
    (c : Content) (v : Nat) :
    updContentFn rid (updatable_fields.map (fun f => (f, c.get f))) (some v) r =
      { r with content := c, version := v } := by
  simp [updContentFn, hrid, apply_record_data_all]

theorem VersionKeysUnique_append {db : DB} {v : RecordVersion}
    (hu : VersionKeysUnique db)
    (habs : DatabaseService.get_record_version_by_number db v.decision_record_id
      v.version = none) :
    ((db.versions ++ [v]).map
      (fun w => (w.decision_record_id, w.version))).Nodup := by
  rw [List.map_append, List.nodup_append]
  refine ⟨hu, List.nodup_singleton _, ?_⟩
  intro k hk hk2
  simp only [List.map_cons, List.map_nil, List.mem_singleton] at hk2
  obtain ⟨w, hw, hwk⟩ := List.mem_map.mp hk
  have hnot := List.find?_eq_none.mp habs w hw
  apply hnot
  rw [hk2] at hwk
  have h1 : w.decision_record_id = v.decision_record_id :=
    congrArg Prod.fst hwk
  have h2 : w.version = v.version := congrArg Prod.snd hwk
  simp [h1, h2]

/-- C5: updating a record with a payload whose supplied (non-null) fields
all equal the record's current values is a true no-op: the call succeeds,
returns the current record, and the entire store — including version,
changelog and snapshot table — is unchanged. -/
theorem C5_noop_update (db : DB) (rid : Nat) (payload : Content)
    (r : DecisionRecord)
    (hr : DatabaseService.get_decision_record db rid = some r)
    (hsame : ∀ f, payload.get f = none ∨ payload.get f = r.content.get f) :
    DecisionService.update_decision_record db rid payload = .ok (db, r) :=
  update_noop hr hsame

/-- Witness for C5 at a concrete store: re-submitting the record's own
content leaves the store untouched. -/
theorem C5_noop_update_witness :
    DecisionService.update_decision_record oneRecordDB 0 sampleContent =
      .ok (oneRecordDB, record0) :=
  C5_noop_update oneRecordDB 0 sampleContent record0 (by rfl)
    (fun f => Or.inr rfl)

/-- C8: no operation partially applies on failure: whenever changeStatus,
updateContent or revertToVersion fails, the store carried at the raise
point is exactly the pre-call store. -/
theorem C8_atomic_failure (db : DB) :
    (∀ rid ns reason auto e dbe,
        DecisionService.change_record_status db rid ns reason auto =
          .error (e, dbe) → dbe = db) ∧
    (∀ rid p e dbe,
        DecisionService.update_decision_record db rid p = .error (e, dbe) →
          dbe = db) ∧
    (∀ rid v reason e dbe,
        DecisionService.revert_to_version db rid v reason = .error (e, dbe) →
          dbe = db) :=
  ⟨fun _ _ _ _ _ _ h => (change_status_error_shape h).1,
   fun _ _ _ _ h => (update_error_db h).2,
   fun _ _ _ _ _ h => (revert_error_db h).2⟩

/-- Witness for C8: a changeStatus blocked with Conflict (accepting record
3 while record 0 is accepted, with auto_handle_conflicts off) carries the
unchanged store. -/
theorem C8_atomic_failure_witness : acceptedProposedDB = acceptedProposedDB :=
  (C8_atomic_failure acceptedProposedDB).1 3 "accepted" none false .conflict
    acceptedProposedDB (by rfl)

/-- C9: snapshot creation is insert-if-absent on (decision_record_id,
version): an existing row is returned unchanged and never overwritten, a
missing row is inserted, the per-pair uniqueness is preserved by the store
method, and every exposed operation preserves it. -/
theorem C9_snapshot_insert_if_absent (db : DB) (v : RecordVersion) :
    (∀ w, DatabaseService.get_record_version_by_number db v.decision_record_id
        v.version = some w →
      DatabaseService.create_record_version db v = (db, some w)) ∧
    (DatabaseService.get_record_version_by_number db v.decision_record_id
        v.version = none →
      DatabaseService.create_record_version db v =
        ({ db with versions := db.versions ++ [v] }, some v)) ∧
    (VersionKeysUnique db →
      VersionKeysUnique (DatabaseService.create_record_version db v).1) ∧
    (∀ op, VersionKeysUnique db → VersionKeysUnique (applyOp db op)) := by
  refine ⟨fun w hw => create_record_version_existing hw,
          fun habs => create_record_version_insert habs,
          fun hu => ?_, fun op hu => ?_⟩
  · rcases create_record_version_versions_abs db v with hv | ⟨habs, hv⟩
    · unfold VersionKeysUnique
      rw [hv]
      exact hu
    · unfold VersionKeysUnique
      rw [hv]
      exact VersionKeysUnique_append hu habs
  · cases op with
    | createRecord d c st =>
      unfold applyOp
      simp only []
      cases hc : DecisionService.create_decision_record db d c st with
      | error e =>
        obtain ⟨e1, dbe⟩ := e
        simp only []
        rw [(create_error_shape hc).1]
        exact hu
      | ok pr =>
        obtain ⟨db', rec⟩ := pr
        simp only []
        obtain ⟨_, _, _, _, _, _, _, _, _, hvers, _, _⟩ := create_ok_shape hc
        rcases hvers with hv | ⟨w, hw1, hw2, habs, hv⟩
        · unfold VersionKeysUnique
          rw [hv]
          exact hu
        · unfold VersionKeysUnique
          rw [hv]
          have habs' : DatabaseService.get_record_version_by_number db
              w.decision_record_id w.version = none := by
            rw [hw1, hw2]
            exact habs
          exact VersionKeysUnique_append hu habs'
    | changeStatus rid ns reason auto =>
      unfold applyOp
      simp only []
      cases hc : DecisionService.change_record_status db rid ns reason auto with
      | error e =>
        obtain ⟨e1, dbe⟩ := e
        simp only []
        rw [(change_status_error_shape hc).1]
        exact hu
      | ok pr =>
        obtain ⟨db', res⟩ := pr
        simp only []
        obtain ⟨r, nsv, _, _, _, _, hcase⟩ := change_status_ok_shape hc
        have hvers : db'.versions = db.versions := by
          rcases hcase with ⟨_, _, hdb, _⟩ | ⟨_, hsub⟩ | ⟨_, dbI, affI, hI, hsub⟩
          · rw [hdb]; rfl
          · rcases hsub with ⟨hdb, _⟩ | ⟨ca, _, _, _, hdb, _⟩
            · rw [hdb]; rfl
            · rw [hdb]; rfl
          · rcases hI with ⟨hdbI, _⟩ | ⟨ci, _, _, _, hdbI, _⟩ <;>
              rcases hsub with ⟨hdb, _⟩ | ⟨ca, _, _, _, hdb, _⟩ <;>
              subst hdbI <;> rw [hdb] <;> rfl
        unfold VersionKeysUnique
        rw [hvers]
        exact hu
    | updateContent rid p =>
      unfold applyOp
      simp only []
      cases hc : DecisionService.update_decision_record db rid p with
      | error e =>
        obtain ⟨e1, dbe⟩ := e
        simp only []
        rw [(update_error_db hc).2]
        exact hu
      | ok pr =>
        obtain ⟨db', res⟩ := pr
        simp only []
        obtain ⟨r, hr, hcase⟩ := update_ok_shape hc
        rcases hcase with ⟨hdb, _⟩ | ⟨_, _, _, _, _, _, hvers⟩
        · rw [hdb]; exact hu
        · rcases hvers with hv | ⟨w, hw1, hw2, habs, hv⟩
          · unfold VersionKeysUnique
            rw [hv]
            exact hu
          · unfold VersionKeysUnique
            rw [hv]
            have habs' : DatabaseService.get_record_version_by_number db
                w.decision_record_id w.version = none := by
              rw [hw1, hw2]
              exact habs
            exact VersionKeysUnique_append hu habs'
    | revertToVersion rid ver reason =>
      unfold applyOp
      simp only []
      cases hc : DecisionService.revert_to_version db rid ver reason with
      | error e =>
        obtain ⟨e1, dbe⟩ := e
        simp only []
        rw [(revert_error_db hc).2]
        exact hu
      | ok pr =>
        obtain ⟨db', res⟩ := pr
        simp only []
        have hshape : ∃ r vrec,
            DatabaseService.get_decision_record db rid = some r ∧
            DatabaseService.get_record_version_by_number db rid ver =
              some vrec := by
          unfold DecisionService.revert_to_version at hc
          cases hat : DecisionService.get_record_at_version db rid ver with
          | none => rw [hat] at hc; simp at hc
          | some snap =>
            rw [hat] at hc
            cases hrr : DatabaseService.get_decision_record db rid with
            | none => rw [hrr] at hc; simp at hc
            | some r =>
              unfold DecisionService.get_record_at_version at hat
              cases hvv : DatabaseService.get_record_version_by_number db rid
                  ver with
              | none => rw [hvv] at hat; simp at hat
              | some w => exact ⟨r, w, rfl, rfl⟩
        obtain ⟨r, vrec, hr, hv'⟩ := hshape
        obtain ⟨db2, heq, _, _, _, _, _, hvers⟩ := revert_ok_shape hr hv'
        rw [hc] at heq
        simp only [Except.ok.injEq, Prod.mk.injEq] at heq
        obtain ⟨hdb2, _⟩ := heq
        subst hdb2
        rcases hvers with hv | ⟨w, hw1, hw2, habs, hv⟩
        · unfold VersionKeysUnique
          rw [hv]
          exact hu
        · unfold VersionKeysUnique
          rw [hv]
          have habs' : DatabaseService.get_record_version_by_number db
              w.decision_record_id w.version = none := by
            rw [hw1, hw2]
            exact habs
          exact VersionKeysUnique_append hu habs'

/-- Witness for C9: re-inserting the (0, 1) snapshot of oneRecordDB does
not error and returns the stored row unchanged. -/
theorem C9_snapshot_insert_if_absent_witness :
    DatabaseService.create_record_version oneRecordDB
      { id := 99, decision_record_id := 0, version := 1,
        snapshot := { record_id := 0, decision_id := 1,
                      content := sampleContent2, status := .accepted,
                      version := 1 } } =
      (oneRecordDB, some versionRow0) :=
  (C9_snapshot_insert_if_absent oneRecordDB _).1 versionRow0 (by rfl)

/-- C10: revertToVersion copies exactly the nine content fields from the
target snapshot; the reverted record keeps its current status (even though
the snapshot also stores a status), and no record's status changes. -/
theorem C10_revert_keeps_status (db : DB) (rid N : Nat)
    (reason : Option String) (r : DecisionRecord) (vrec : RecordVersion)
    (hr : DatabaseService.get_decision_record db rid = some r)
    (hv : DatabaseService.get_record_version_by_number db rid N = some vrec) :
    ∃ db' res, DecisionService.revert_to_version db rid N reason =
        .ok (db', res) ∧
      res.content = vrec.snapshot.content ∧
      res.status = r.status ∧
      res.version = r.version + 1 ∧
      ∀ r' ∈ db'.records, ∃ r0 ∈ db.records,
        r0.id = r'.id ∧ r'.status = r0.status := by
  obtain ⟨db', heq, hrecs, _⟩ := revert_ok_shape hr hv
  refine ⟨db', _, heq, rfl, rfl, rfl, ?_⟩
  intro r' hr'
  rw [hrecs] at hr'
  obtain ⟨r0, hr0, hfr0⟩ := List.mem_map.mp hr'
  refine ⟨r0, hr0, ?_, ?_⟩
  · rw [← hfr0, updContentFn_id]
  · rw [← hfr0, updContentFn_status]

/-- Witness for C10 at a concrete store: reverting the updated record to
version 1 restores its version-1 content but keeps its status. -/
theorem C10_revert_keeps_status_witness :
    ∃ db' res, DecisionService.revert_to_version updatedDB 0 1 none =
        .ok (db', res) ∧
      res.content = versionRow0.snapshot.content ∧
      res.status = DecisionRecordStatus.proposed ∧
      res.version = 2 + 1 ∧
      ∀ r' ∈ db'.records, ∃ r0 ∈ updatedDB.records,
        r0.id = r'.id ∧ r'.status = r0.status :=
  C10_revert_keeps_status updatedDB 0 1 none
    { id := 0, decision_id := 1,
      content := ⟨none, none, some "Use Postgres", some "because benchmarks",
        none, none, none, none, none⟩,
      status := .proposed, version := 2 }
    versionRow0 (by rfl) (by rfl)

/-- C6: reverting to a stored version N succeeds, bumps the version to the
previous version plus one (never rewinding the counter), and an immediate
diff between the live record and version N reports no changed fields. -/
theorem C6_revert_then_empty_diff (db : DB) (rid N : Nat)
    (reason : Option String) (r : DecisionRecord) (vrec : RecordVersion)
    (hr : DatabaseService.get_decision_record db rid = some r)
    (hv : DatabaseService.get_record_version_by_number db rid N = some vrec) :
    ∃ db' res, DecisionService.revert_to_version db rid N reason =
        .ok (db', res) ∧
      res.version = r.version + 1 ∧
      ∃ dres, DecisionService.get_version_diff db' rid .current (.num N) =
          .ok dres ∧
        dres.changes = [] ∧ dres.from_version_number = r.version + 1 ∧
        dres.to_version_number = N := by
  have hrid : r.id = rid := (get_decision_record_mem hr).2
  obtain ⟨db', heq, hrecs, _, _, _, _, hvers⟩ := revert_ok_shape hr hv
  refine ⟨db', _, heq, rfl, ?_⟩
  have hget : DatabaseService.get_decision_record db' rid =
      some
        { r with content := vrec.snapshot.content, version := r.version + 1 } := by
    unfold DatabaseService.get_decision_record at hr ⊢
    rw [hrecs, find?_id_map (updContentFn_id _ _ _), hr]
    simp only [Option.map_some']
    rw [updContentFn_all hrid]
  have hsnapN : DatabaseService.get_record_version_by_number db' rid N =
      some vrec := by
    rcases hvers with hsame | ⟨w, _, _, _, happ⟩
    · unfold DatabaseService.get_record_version_by_number at hv ⊢
      rw [hsame]
      exact hv
    · unfold DatabaseService.get_record_version_by_number at hv ⊢
      rw [happ, List.find?_append, hv]
      rfl
  unfold DecisionService.get_version_diff DecisionService.resolve_diff_side
  rw [hget]
  unfold DecisionService.get_record_at_version
  simp only []
  rw [hsnapN]
  simp only [Option.map_some']
  refine ⟨_, rfl, ?_, rfl, rfl⟩
  simp only []
  rw [List.filterMap_eq_nil_iff]
  intro f hf
  simp

/-- Witness for C6 at a concrete store: revert record 0 of updatedDB to
version 1, then diff current against version 1: no changes. -/
theorem C6_revert_then_empty_diff_witness :
    ∃ db' res, DecisionService.revert_to_version updatedDB 0 1 none =
        .ok (db', res) ∧
      res.version = 2 + 1 ∧
      ∃ dres, DecisionService.get_version_diff db' 0 .current (.num 1) =
          .ok dres ∧
        dres.changes = [] ∧ dres.from_version_number = 2 + 1 ∧
        dres.to_version_number = 1 :=
  C6_revert_then_empty_diff updatedDB 0 1 none
    { id := 0, decision_id := 1,
      content := ⟨none, none, some "Use Postgres", some "because benchmarks",
        none, none, none, none, none⟩,
      status := .proposed, version := 2 }
    versionRow0 (by rfl) (by rfl)

theorem get_of_mem_wf {db : DB} {a : DecisionRecord} (hwf : WF db)
    (ha : a ∈ db.records) :
    DatabaseService.get_decision_record db a.id = some a := by
  unfold DatabaseService.get_decision_record
  cases hf : db.records.find? (fun x => x.id == a.id) with
  | none =>
    exact absurd (by simp : (fun (x : DecisionRecord) => x.id == a.id) a = true)
      (List.find?_eq_none.mp hf a ha)
  | some b =>
    have hb := List.mem_of_find?_eq_some hf
    have hbid : b.id = a.id := by simpa using List.find?_some hf
    rw [List.inj_on_of_nodup_map hwf.1 hb ha hbid]

/-- C2 (amended): when implementing record B whose decision currently has
a distinct accepted sibling ca and no distinct implemented sibling, the
deprecate-the-accepted-sibling step fires exactly when
auto_handle_conflicts is true.  With false the step is silently skipped —
the call still succeeds (no Conflict), ca keeps its status, no edge and no
history row for ca are written; with true ca is deprecated with its
StatusHistory row and a superseded_by edge, and is reported in
affected_records. -/
theorem C2_accepted_sibling_gated (db : DB) (B : Nat) (reason : Option String)
    (r ca : DecisionRecord)
    (hwf : WF db)
    (hr : DatabaseService.get_decision_record db B = some r)
    (hacc : r.status = .accepted)
    (hci : DatabaseService.get_current_implemented_record db r.decision_id = none)
    (hca : DatabaseService.get_current_accepted_record db r.decision_id = some ca)
    (hne : ca.id ≠ B) :
    (∃ db' res, DecisionService.change_record_status db B "implemented" reason
        false = .ok (db', res) ∧
      res.affected_records = [] ∧
      db'.relationships = db.relationships ∧
      db'.status_history = db.status_history ++
        [{ id := db.nextId, decision_record_id := B, from_status := some r.status,
           to_status := .implemented, reason := reason, metadata := none }] ∧
      (DatabaseService.get_decision_record db' ca.id).map (fun x => x.status) =
        (DatabaseService.get_decision_record db ca.id).map (fun x => x.status)) ∧
    (∃ db' res, DecisionService.change_record_status db B "implemented" reason
        true = .ok (db', res) ∧
      res.affected_records = [ca.id] ∧
      (∃ ca', DatabaseService.get_decision_record db' ca.id = some ca' ∧
        ca'.status = .deprecated) ∧
      (∃ e ∈ db'.relationships, e.source_record_id = ca.id ∧
        e.target_record_id = B ∧ e.relationship_type = "superseded_by") ∧
      (∃ hx ∈ db'.status_history, hx.decision_record_id = ca.id ∧
        hx.from_status = some ca.status ∧ hx.to_status = .deprecated ∧
        hx.metadata = some { triggering_decision_record_id := B,
                             change_type := "automatic" })) := by
  have hrid : r.id = B := (get_decision_record_mem hr).2
  have hv : is_valid_transition r.status .implemented = true := by
    rw [hacc]
    rfl
  have hcam := current_accepted_mem hca
  have hgetca : DatabaseService.get_decision_record db ca.id = some ca :=
    get_of_mem_wf hwf hcam.1
  constructor
  · unfold DecisionService.change_record_status
    rw [hr, show DecisionRecordStatus.ofString "implemented" =
      some .implemented from rfl]
    simp only []
    rw [if_pos hv, if_neg (by decide : ¬(DecisionRecordStatus.implemented =
      DecisionRecordStatus.accepted))]
    simp only []
    simp only [if_true]
    rw [show DecisionService.handle_implemented_conflict_block db B
        r.decision_id false = .ok (db, []) from by
      unfold DecisionService.handle_implemented_conflict_block
      rw [hci]]
    simp only []
    rw [show DecisionService.handle_accepted_on_implement_block db B
        r.decision_id false = (db, []) from by
      unfold DecisionService.handle_accepted_on_implement_block
      rw [hca]
      simp only []
      rw [if_pos hne, if_neg Bool.false_ne_true]]
    simp only []
    rw [finalize_ok_shape hr hrid]
    refine ⟨_, _, rfl, rfl, rfl, rfl, ?_⟩
    rw [hgetca]
    rw [show DatabaseService.get_decision_record
        (finalizeDB db B r.status .implemented reason) ca.id = some ca from by
      unfold DatabaseService.get_decision_record at hgetca ⊢
      exact find?_map_updStatusFn_ne hgetca hne _]
  · unfold DecisionService.change_record_status
    rw [hr, show DecisionRecordStatus.ofString "implemented" =
      some .implemented from rfl]
    simp only []
    rw [if_pos hv, if_neg (by decide : ¬(DecisionRecordStatus.implemented =
      DecisionRecordStatus.accepted))]
    simp only []
    simp only [if_true]
    rw [show DecisionService.handle_implemented_conflict_block db B
        r.decision_id true = .ok (db, []) from by
      unfold DecisionService.handle_implemented_conflict_block
      rw [hci]]
    simp only []
    rw [show DecisionService.handle_accepted_on_implement_block db B
        r.decision_id true = (cascadeDeprecateDB db B ca, [ca.id]) from by
      unfold DecisionService.handle_accepted_on_implement_block
      rw [hca]
      simp only []
      rw [if_pos hne]
      simp only [if_true]
      rfl]
    simp only []
    have hne' : r.id ≠ ca.id := by
      rw [hrid]
      exact Ne.symm hne
    rw [finalize_ok_shape (get_cascadeDeprecateDB hr hne') hrid]
    refine ⟨_, _, rfl, by simp, ?_, ?_, ?_⟩
    · refine ⟨{ ca with status := .deprecated }, ?_, rfl⟩
      have h1 : DatabaseService.get_decision_record (cascadeDeprecateDB db B ca)
          ca.id = some { ca with status := .deprecated } := by
        unfold DatabaseService.get_decision_record at hgetca ⊢
        exact find?_map_updStatusFn_self hgetca rfl _
      unfold DatabaseService.get_decision_record at h1 ⊢
      exact find?_map_updStatusFn_ne h1 hne _
    · refine ⟨(⟨db.nextId + 1, ca.id, B, "superseded_by",
          some ("Automatically superseded when record "
            ++ toString B ++ " was implemented")⟩ : Relationship),
        ?_, rfl, rfl, rfl⟩
      show _ ∈ db.relationships ++ [_]
      exact List.mem_append_right _ (List.mem_singleton.mpr rfl)
    · refine ⟨(⟨db.nextId, ca.id, some ca.status, .deprecated,
          some "Automatically deprecated: Another record was implemented",
          some ⟨B, "automatic"⟩⟩ : StatusHistoryEntry),
        ?_, rfl, rfl, rfl, rfl⟩
      show _ ∈ (db.status_history ++ [_]) ++ [_]
      exact List.mem_append_left _ (List.mem_append_right _
        (List.mem_singleton.mpr rfl))

/-- C2 counterexample: starting from two directly-created accepted records
(ids 0 and 3) under decision 1, implementing record 3 with
auto_handle_conflicts=false succeeds, but the accepted sibling record 0 is
NOT auto-deprecated: it stays accepted, no superseded_by edge exists and
no history row deprecates it — refuting the claim that the step fires
regardless of auto_handle_conflicts. -/
theorem C2_counterexample :
    resultErr (DecisionService.change_record_status twoAcceptedDB 3
      "implemented" none false) = none ∧
    (DatabaseService.get_decision_record implementNoAutoDB 0).map
      (fun x => x.status) = some .accepted ∧
    implementNoAutoDB.relationships = [] ∧
    implementNoAutoDB.status_history.filter
      (fun hx => hx.decision_record_id == 0 &&
        hx.to_status == DecisionRecordStatus.deprecated) = [] := by
  refine ⟨?_, ?_, ?_, ?_⟩ <;> rfl

/-- Witness for C2 at the concrete store twoAcceptedDB (records 0 and 3
accepted, no implemented record). -/
theorem C2_accepted_sibling_gated_witness :
    (∃ db' res, DecisionService.change_record_status twoAcceptedDB 3
        "implemented" none false = .ok (db', res) ∧
      res.affected_records = [] ∧
      db'.relationships = twoAcceptedDB.relationships ∧
      db'.status_history = twoAcceptedDB.status_history ++
        [{ id := twoAcceptedDB.nextId, decision_record_id := 3,
           from_status := some DecisionRecordStatus.accepted,
           to_status := .implemented, reason := none, metadata := none }] ∧
      (DatabaseService.get_decision_record db' 0).map (fun x => x.status) =
        (DatabaseService.get_decision_record twoAcceptedDB 0).map
          (fun x => x.status)) ∧
    (∃ db' res, DecisionService.change_record_status twoAcceptedDB 3
        "implemented" none true = .ok (db', res) ∧
      res.affected_records = [0] ∧
      (∃ ca', DatabaseService.get_decision_record db' 0 = some ca' ∧
        ca'.status = .deprecated) ∧
      (∃ e ∈ db'.relationships, e.source_record_id = 0 ∧
        e.target_record_id = 3 ∧ e.relationship_type = "superseded_by") ∧
      (∃ hx ∈ db'.status_history, hx.decision_record_id = 0 ∧
        hx.from_status = some DecisionRecordStatus.accepted ∧
        hx.to_status = .deprecated ∧
        hx.metadata = some { triggering_decision_record_id := 3,
                             change_type := "automatic" })) :=
  C2_accepted_sibling_gated twoAcceptedDB 3 none
    { id := 3, decision_id := 1, content := sampleContent2,
      status := .accepted, version := 1 }
    { id := 0, decision_id := 1, content := sampleContent,
      status := .accepted, version := 1 }
    (by constructor
        · decide
        · decide)
    (by rfl) (by rfl) (by rfl) (by rfl) (by decide)

/-- C3: accepting record B with auto_handle_conflicts=true when a distinct
record A of the same decision currently holds accepted (and the store is
well-formed with at most one accepted record per decision): A becomes
rejected, a StatusHistory row for A is written with the system-generated
reason and metadata change_type=automatic referencing B, a superseded_by
edge from A to B is created, and affected_records = [A.id]; when no
distinct accepted sibling exists the call succeeds with an empty
affected_records. -/
theorem C3_accept_conflict_cascade (db : DB) (B : Nat) (reason : Option String)
    (r : DecisionRecord)
    (hwf : WF db)
    (hr : DatabaseService.get_decision_record db B = some r)
    (hprop : r.status = .proposed)
    (hinv : accepted_count db r.decision_id ≤ 1) :
    (∀ A ∈ db.records, A.decision_id = r.decision_id → A.status = .accepted →
      A.id ≠ B →
      ∃ db' res, DecisionService.change_record_status db B "accepted" reason
          true = .ok (db', res) ∧
        res.affected_records = [A.id] ∧
        (∃ A2, DatabaseService.get_decision_record db' A.id = some A2 ∧
          A2.status = .rejected) ∧
        (∃ hx ∈ db'.status_history, hx.decision_record_id = A.id ∧
          hx.from_status = some DecisionRecordStatus.accepted ∧
          hx.to_status = .rejected ∧
          hx.reason = some "Automatically rejected: Another record was accepted" ∧
          hx.metadata = some { triggering_decision_record_id := B,
                               change_type := "automatic" }) ∧
        (∃ e ∈ db'.relationships, e.source_record_id = A.id ∧
          e.target_record_id = B ∧ e.relationship_type = "superseded_by")) ∧
    ((∀ A ∈ db.records, isAcceptedIn r.decision_id A = true → A.id = B) →
      ∃ db' res, DecisionService.change_record_status db B "accepted" reason
          true = .ok (db', res) ∧
        res.affected_records = []) := by
  have hrid : r.id = B := (get_decision_record_mem hr).2
  have hrmem : r ∈ db.records := (get_decision_record_mem hr).1
  have hv : is_valid_transition r.status .accepted = true := by
    rw [hprop]
    rfl
  constructor
  · intro A hAmem hAdec hAst hAne
    have hpA : isAcceptedIn r.decision_id A = true := by
      simp [isAcceptedIn, hAdec, hAst]
    have hca : DatabaseService.get_current_accepted_record db r.decision_id =
        some A := by
      unfold DatabaseService.get_current_accepted_record
      exact find?_eq_some_of_unique hinv hAmem hpA
    have hne' : r.id ≠ A.id := by
      intro heq
      have hreqA : r = A := List.inj_on_of_nodup_map hwf.1 hrmem hAmem heq
      have hra : r.status = .accepted := by
        rw [hreqA]
        exact hAst
      rw [hprop] at hra
      exact DecisionRecordStatus.noConfusion hra
    unfold DecisionService.change_record_status
    rw [hr, show DecisionRecordStatus.ofString "accepted" =
      some .accepted from rfl]
    simp only []
    rw [if_pos hv]
    simp only [if_true]
    rw [show DecisionService.handle_accepted_conflict_block db B
        r.decision_id true = .ok (cascadeRejectDB db B A, [A.id]) from by
      unfold DecisionService.handle_accepted_conflict_block
      rw [hca]
      simp only []
      rw [if_pos hAne]
      simp only [if_true]
      rfl]
    simp only []
    rw [if_neg (by decide : ¬(DecisionRecordStatus.accepted =
      DecisionRecordStatus.implemented))]
    simp only []
    rw [finalize_ok_shape (get_cascadeRejectDB hr hne') hrid]
    refine ⟨_, _, rfl, by simp, ?_, ?_, ?_⟩
    · have hgetA : DatabaseService.get_decision_record db A.id = some A :=
        get_of_mem_wf hwf hAmem
      refine ⟨{ A with status := .rejected }, ?_, rfl⟩
      have h1 : DatabaseService.get_decision_record (cascadeRejectDB db B A)
          A.id = some { A with status := .rejected } := by
        unfold DatabaseService.get_decision_record at hgetA ⊢
        exact find?_map_updStatusFn_self hgetA rfl _
      unfold DatabaseService.get_decision_record at h1 ⊢
      exact find?_map_updStatusFn_ne h1 hAne _
    · refine ⟨(⟨db.nextId, A.id, some A.status, .rejected,
          some "Automatically rejected: Another record was accepted",
          some ⟨B, "automatic"⟩⟩ : StatusHistoryEntry),
        ?_, rfl, by rw [hAst], rfl, rfl, rfl⟩
      show _ ∈ (db.status_history ++ [_]) ++ [_]
      exact List.mem_append_left _ (List.mem_append_right _
        (List.mem_singleton.mpr rfl))
    · refine ⟨(⟨db.nextId + 1, A.id, B, "superseded_by",
          some ("Automatically superseded when record "
            ++ toString B ++ " was accepted")⟩ : Relationship),
        ?_, rfl, rfl, rfl⟩
      show _ ∈ db.relationships ++ [_]
      exact List.mem_append_right _ (List.mem_singleton.mpr rfl)
  · intro hnone
    have hca2 : DatabaseService.get_current_accepted_record db r.decision_id =
        none := by
      cases hca : DatabaseService.get_current_accepted_record db r.decision_id with
      | none => rfl
      | some ca =>
        obtain ⟨hcm, hcp⟩ := current_accepted_mem hca
        have hidB : ca.id = B := hnone ca hcm hcp
        have hcar : ca = r := List.inj_on_of_nodup_map hwf.1 hcm hrmem
          (by rw [hidB, hrid])
        have hcs : ca.status = .accepted := by
          have hcp2 := hcp
          simp [isAcceptedIn] at hcp2
          exact hcp2.2
        rw [hcar, hprop] at hcs
        exact DecisionRecordStatus.noConfusion hcs
    unfold DecisionService.change_record_status
    rw [hr, show DecisionRecordStatus.ofString "accepted" =
      some .accepted from rfl]
    simp only []
    rw [if_pos hv]
    simp only [if_true]
    rw [show DecisionService.handle_accepted_conflict_block db B
        r.decision_id true = .ok (db, []) from by
      unfold DecisionService.handle_accepted_conflict_block
      rw [hca2]]
    simp only []
    rw [if_neg (by decide : ¬(DecisionRecordStatus.accepted =
      DecisionRecordStatus.implemented))]
    simp only []
    rw [finalize_ok_shape hr hrid]
    exact ⟨_, _, rfl, rfl⟩

/-- Witness for C3 at acceptedProposedDB: record 0 is accepted, record 3
is proposed; accepting record 3 with auto_handle_conflicts=true rejects
record 0 with the system history row and superseded_by edge. -/
theorem C3_accept_conflict_cascade_witness :
    ∃ db' res, DecisionService.change_record_status acceptedProposedDB 3
        "accepted" none true = .ok (db', res) ∧
      res.affected_records = [0] ∧
      (∃ A2, DatabaseService.get_decision_record db' 0 = some A2 ∧
        A2.status = .rejected) ∧
      (∃ hx ∈ db'.status_history, hx.decision_record_id = 0 ∧
        hx.from_status = some DecisionRecordStatus.accepted ∧
        hx.to_status = .rejected ∧
        hx.reason = some "Automatically rejected: Another record was accepted" ∧
        hx.metadata = some { triggering_decision_record_id := 3,
                             change_type := "automatic" }) ∧
      (∃ e ∈ db'.relationships, e.source_record_id = 0 ∧
        e.target_record_id = 3 ∧ e.relationship_type = "superseded_by") :=
  (C3_accept_conflict_cascade acceptedProposedDB 3 none
    { id := 3, decision_id := 1, content := sampleContent2,
      status := .proposed, version := 1 }
    (by constructor
        · decide
        · decide)
    (by rfl) (by rfl) (by decide)).1
    { id := 0, decision_id := 1, content := sampleContent,
      status := .accepted, version := 1 }
    (by decide) rfl rfl (by decide)

theorem resultErr_finalize_ok {db : DB} {rid : Nat}
    {old ns : DecisionRecordStatus} {reason : Option String} {aff : List Nat}
    {r : DecisionRecord}
    (hr : DatabaseService.get_decision_record db rid = some r)
    (hid : r.id = rid) :
    resultErr (DecisionService.finalize_status_change db rid old ns reason aff) =
      none := by
  rw [finalize_ok_shape hr hid]
  rfl

/-- C4 (amended): under the one-accepted/one-implemented invariant,
changeStatus fails with NotFound iff the record does not exist,
InvalidStatus iff new_status is not one of the six enum values,
InvalidTransition iff (current, new) is not an edge of VALID_TRANSITIONS,
and Conflict iff auto_handle_conflicts is false and a distinct sibling
currently holds the TARGETED status (accepted when accepting, implemented
when implementing) — a distinct accepted sibling does NOT make an
implement call fail; otherwise the call succeeds. -/
theorem C4_error_characterization (db : DB) (rid : Nat) (ns_str : String)
    (reason : Option String) (auto : Bool)
    (hsi : StatusInvariant db) :
    resultErr (DecisionService.change_record_status db rid ns_str reason auto) =
      spec_change_status_err db rid ns_str auto := by
  unfold spec_change_status_err
  cases hget : DatabaseService.get_decision_record db rid with
  | none =>
    rw [show DecisionService.change_record_status db rid ns_str reason auto =
        .error (.notFound, db) from by
      unfold DecisionService.change_record_status
      rw [hget]]
    rfl
  | some r =>
    have hrid : r.id = rid := (get_decision_record_mem hget).2
    have hrmem : r ∈ db.records := (get_decision_record_mem hget).1
    simp only []
    cases hns : DecisionRecordStatus.ofString ns_str with
    | none =>
      rw [show DecisionService.change_record_status db rid ns_str reason auto =
          .error (.invalidStatus, db) from by
        unfold DecisionService.change_record_status
        rw [hget]
        simp only []
        rw [hns]]
      rfl
    | some ns =>
      simp only []
      by_cases hv : is_valid_transition r.status ns = true
      · rw [if_pos hv]
        by_cases hnsa : ns = DecisionRecordStatus.accepted
        · subst hnsa
          cases hca : DatabaseService.get_current_accepted_record db
              r.decision_id with
          | none =>
            have hnd : has_distinct_accepted_sibling db rid r.decision_id =
                false := by
              unfold has_distinct_accepted_sibling
              rw [List.any_eq_false]
              intro s hs
              unfold DatabaseService.get_current_accepted_record at hca
              have hnp := List.find?_eq_none.mp hca s hs
              simp [hnp]
            have hok : resultErr (DecisionService.change_record_status db rid
                ns_str reason auto) = none := by
              unfold DecisionService.change_record_status
              rw [hget]
              simp only []
              rw [hns]
              simp only []
              rw [if_pos hv]
              simp only [if_true]
              rw [show DecisionService.handle_accepted_conflict_block db rid
                  r.decision_id auto = .ok (db, []) from by
                unfold DecisionService.handle_accepted_conflict_block
                rw [hca]]
              simp only []
              rw [if_neg (by decide : ¬(DecisionRecordStatus.accepted =
                DecisionRecordStatus.implemented))]
              simp only []
              exact resultErr_finalize_ok hget hrid
            rw [hok]
            simp [hnd]
          | some ca =>
            obtain ⟨hcam, hcap⟩ := current_accepted_mem hca
            by_cases hcid : ca.id = rid
            · have hnd : has_distinct_accepted_sibling db rid r.decision_id =
                  false := by
                unfold has_distinct_accepted_sibling
                rw [List.any_eq_false]
                intro s hs
                by_cases hps : isAcceptedIn r.decision_id s = true
                · have hc1 : db.records.countP (isAcceptedIn r.decision_id) ≤
                      1 := by
                    have hc := (hsi r.decision_id).1
                    unfold accepted_count at hc
                    exact hc
                  have hsca : s = ca :=
                    eq_of_countP_le_one hc1 hs hcam hps hcap
                  simp [hps, hsca, hcid]
                · simp only [Bool.not_eq_true] at hps
                  simp [hps]
              have hok : resultErr (DecisionService.change_record_status db rid
                  ns_str reason auto) = none := by
                unfold DecisionService.change_record_status
                rw [hget]
                simp only []
                rw [hns]
                simp only []
                rw [if_pos hv]
                simp only [if_true]
                rw [show DecisionService.handle_accepted_conflict_block db rid
                    r.decision_id auto = .ok (db, []) from by
                  unfold DecisionService.handle_accepted_conflict_block
                  rw [hca]
                  simp only []
                  rw [if_neg (not_not_intro hcid)]]
                simp only []
                rw [if_neg (by decide : ¬(DecisionRecordStatus.accepted =
                  DecisionRecordStatus.implemented))]
                simp only []
                exact resultErr_finalize_ok hget hrid
              rw [hok]
              simp [hnd]
            · cases auto with
              | true =>
                have hok : resultErr (DecisionService.change_record_status db
                    rid ns_str reason true) = none := by
                  unfold DecisionService.change_record_status
                  rw [hget]
                  simp only []
                  rw [hns]
                  simp only []
                  rw [if_pos hv]
                  simp only [if_true]
                  rw [show DecisionService.handle_accepted_conflict_block db rid
                      r.decision_id true =
                      .ok (cascadeRejectDB db rid ca, [ca.id]) from by
                    unfold DecisionService.handle_accepted_conflict_block
                    rw [hca]
                    simp only []
                    rw [if_pos hcid]
                    simp only [if_true]
                    rfl]
                  simp only []
                  rw [if_neg (by decide : ¬(DecisionRecordStatus.accepted =
                    DecisionRecordStatus.implemented))]
                  simp only []
                  have hne2 : r.id ≠ ca.id := by
                    rw [hrid]
                    exact fun hh => hcid hh.symm
                  exact resultErr_finalize_ok (get_cascadeRejectDB hget hne2)
                    hrid
                rw [hok]
                simp
              | false =>
                have herr : resultErr (DecisionService.change_record_status db
                    rid ns_str reason false) = some .conflict := by
                  unfold DecisionService.change_record_status
                  rw [hget]
                  simp only []
                  rw [hns]
                  simp only []
                  rw [if_pos hv]
                  simp only [if_true]
                  rw [show DecisionService.handle_accepted_conflict_block db rid
                      r.decision_id false = .error (.conflict, db) from by
                    unfold DecisionService.handle_accepted_conflict_block
                    rw [hca]
                    simp only []
                    rw [if_pos hcid]
                    rw [if_neg Bool.false_ne_true]]
                  rfl
                rw [herr]
                have hd : has_distinct_accepted_sibling db rid r.decision_id =
                    true := by
                  unfold has_distinct_accepted_sibling
                  rw [List.any_eq_true]
                  exact ⟨ca, hcam, by simp [hcap, hcid]⟩
                simp [hd]
        · by_cases hnsi : ns = DecisionRecordStatus.implemented
          · subst hnsi
            cases hci : DatabaseService.get_current_implemented_record db
                r.decision_id with
            | none =>
              have hnd : has_distinct_implemented_sibling db rid
                  r.decision_id = false := by
                unfold has_distinct_implemented_sibling
                rw [List.any_eq_false]
                intro s hs
                unfold DatabaseService.get_current_implemented_record at hci
                have hnp := List.find?_eq_none.mp hci s hs
                simp [hnp]
              have hok : resultErr (DecisionService.change_record_status db rid
                  ns_str reason auto) = none := by
                unfold DecisionService.change_record_status
                rw [hget]
                simp only []
                rw [hns]
                simp only []
                rw [if_pos hv]
                rw [if_neg (by decide : ¬(DecisionRecordStatus.implemented =
                  DecisionRecordStatus.accepted))]
                simp only []
                simp only [if_true]
                rw [show DecisionService.handle_implemented_conflict_block db
                    rid r.decision_id auto = .ok (db, []) from by
                  unfold DecisionService.handle_implemented_conflict_block
                  rw [hci]]
                simp only []
                cases hA : DecisionService.handle_accepted_on_implement_block db
                    rid r.decision_id auto with
                | mk dbI2 affI2 =>
                  simp only []
                  rcases handleAonI_shape hA with ⟨hres, _⟩ |
                    ⟨ca, hca2, hcane, _, hres⟩
                  · injection hres with h1 h2
                    subst h1
                    exact resultErr_finalize_ok hget hrid
                  · injection hres with h1 h2
                    subst h1
                    have hne2 : r.id ≠ ca.id := by
                      rw [hrid]
                      exact fun hh => hcane hh.symm
                    exact resultErr_finalize_ok
                      (get_cascadeDeprecateDB hget hne2) hrid
              rw [hok]
              simp [hnd]
            | some ci =>
              obtain ⟨hcim, hcip⟩ := current_implemented_mem hci
              by_cases hcid : ci.id = rid
              · have hnd : has_distinct_implemented_sibling db rid
                    r.decision_id = false := by
                  unfold has_distinct_implemented_sibling
                  rw [List.any_eq_false]
                  intro s hs
                  by_cases hps : isImplementedIn r.decision_id s = true
                  · have hc1 : db.records.countP
                        (isImplementedIn r.decision_id) ≤ 1 := by
                      have hc := (hsi r.decision_id).2
                      unfold implemented_count at hc
                      exact hc
                    have hsci : s = ci :=
                      eq_of_countP_le_one hc1 hs hcim hps hcip
                    simp [hps, hsci, hcid]
                  · simp only [Bool.not_eq_true] at hps
                    simp [hps]
                have hok : resultErr (DecisionService.change_record_status db
                    rid ns_str reason auto) = none := by
                  unfold DecisionService.change_record_status
                  rw [hget]
                  simp only []
                  rw [hns]
                  simp only []
                  rw [if_pos hv]
                  rw [if_neg (by decide : ¬(DecisionRecordStatus.implemented =
                    DecisionRecordStatus.accepted))]
                  simp only []
                  simp only [if_true]
                  rw [show DecisionService.handle_implemented_conflict_block db
                      rid r.decision_id auto = .ok (db, []) from by
                    unfold DecisionService.handle_implemented_conflict_block
                    rw [hci]
                    simp only []
                    rw [if_neg (not_not_intro hcid)]]
                  simp only []
                  cases hA : DecisionService.handle_accepted_on_implement_block
                      db rid r.decision_id auto with
                  | mk dbI2 affI2 =>
                    simp only []
                    rcases handleAonI_shape hA with ⟨hres, _⟩ |
                      ⟨ca, hca2, hcane, _, hres⟩
                    · injection hres with h1 h2
                      subst h1
                      exact resultErr_finalize_ok hget hrid
                    · injection hres with h1 h2
                      subst h1
                      have hne2 : r.id ≠ ca.id := by
                        rw [hrid]
                        exact fun hh => hcane hh.symm
                      exact resultErr_finalize_ok
                        (get_cascadeDeprecateDB hget hne2) hrid
                rw [hok]
                simp [hnd]
              · cases auto with
                | true =>
                  have hok : resultErr (DecisionService.change_record_status db
                      rid ns_str reason true) = none := by
                    unfold DecisionService.change_record_status
                    rw [hget]
                    simp only []
                    rw [hns]
                    simp only []
                    rw [if_pos hv]
                    rw [if_neg (by decide :
                      ¬(DecisionRecordStatus.implemented =
                        DecisionRecordStatus.accepted))]
                    simp only []
                    simp only [if_true]
                    rw [show DecisionService.handle_implemented_conflict_block
                        db rid r.decision_id true =
                        .ok (cascadeDeprecateDB db rid ci, [ci.id]) from by
                      unfold DecisionService.handle_implemented_conflict_block
                      rw [hci]
                      simp only []
                      rw [if_pos hcid]
                      simp only [if_true]
                      rfl]
                    simp only []
                    have hne1 : r.id ≠ ci.id := by
                      rw [hrid]
                      exact fun hh => hcid hh.symm
                    have hget1 : DatabaseService.get_decision_record
                        (cascadeDeprecateDB db rid ci) rid = some r :=
                      get_cascadeDeprecateDB hget hne1
                    cases hA :
                        DecisionService.handle_accepted_on_implement_block
                          (cascadeDeprecateDB db rid ci) rid r.decision_id
                          true with
                    | mk dbI2 affI2 =>
                      simp only []
                      rcases handleAonI_shape hA with ⟨hres, _⟩ |
                        ⟨ca, hca2, hcane, _, hres⟩
                      · injection hres with h1 h2
                        subst h1
                        exact resultErr_finalize_ok hget1 hrid
                      · injection hres with h1 h2
                        subst h1
                        have hne2 : r.id ≠ ca.id := by
                          rw [hrid]
                          exact fun hh => hcane hh.symm
                        exact resultErr_finalize_ok
                          (get_cascadeDeprecateDB hget1 hne2) hrid
                  rw [hok]
                  simp
                | false =>
                  have herr : resultErr (DecisionService.change_record_status
                      db rid ns_str reason false) = some .conflict := by
                    unfold DecisionService.change_record_status
                    rw [hget]
                    simp only []
                    rw [hns]
                    simp only []
                    rw [if_pos hv]
                    rw [if_neg (by decide :
                      ¬(DecisionRecordStatus.implemented =
                        DecisionRecordStatus.accepted))]
                    simp only []
                    simp only [if_true]
                    rw [show DecisionService.handle_implemented_conflict_block
                        db rid r.decision_id false = .error (.conflict, db)
                        from by
                      unfold DecisionService.handle_implemented_conflict_block
                      rw [hci]
                      simp only []
                      rw [if_pos hcid]
                      rw [if_neg Bool.false_ne_true]]
                    rfl
                  rw [herr]
                  have hd : has_distinct_implemented_sibling db rid
                      r.decision_id = true := by
                    unfold has_distinct_implemented_sibling
                    rw [List.any_eq_true]
                    exact ⟨ci, hcim, by simp [hcip, hcid]⟩
                  simp [hd]
          · have hok : resultErr (DecisionService.change_record_status db rid
                ns_str reason auto) = none := by
              unfold DecisionService.change_record_status
              rw [hget]
              simp only []
              rw [hns]
              simp only []
              rw [if_pos hv]
              rw [if_neg hnsa]
              simp only []
              rw [if_neg hnsi]
              simp only []
              exact resultErr_finalize_ok hget hrid
            rw [hok]
            simp [hnsa, hnsi]
      · rw [if_neg hv]
        rw [show DecisionService.change_record_status db rid ns_str reason
            auto = .error (.invalidTransition, db) from by
          unfold DecisionService.change_record_status
          rw [hget]
          simp only []
          rw [hns]
          simp only []
          rw [if_neg hv]]
        rfl

/-- C4 counterexample: in twoAcceptedDB record 0 is a distinct sibling of
record 3 currently holding accepted — by the conflict-coordinator rules a
conflicting sibling for an implement call — yet
changeStatus(3, implemented, auto_handle_conflicts=false) does not fail
with Conflict: it succeeds.  The Conflict check only covers a sibling in
the targeted status itself. -/
theorem C4_counterexample :
    has_distinct_accepted_sibling twoAcceptedDB 3 1 = true ∧
    resultErr (DecisionService.change_record_status twoAcceptedDB 3
      "implemented" none false) = none := by
  exact ⟨rfl, rfl⟩

/-- Witness for C4 at oneRecordDB (single proposed record, id 0). -/
theorem C4_error_characterization_witness :
    resultErr (DecisionService.change_record_status oneRecordDB 0 "accepted"
      none false) = spec_change_status_err oneRecordDB 0 "accepted" false :=
  C4_error_characterization oneRecordDB 0 "accepted" none false
    (by
      intro d
      constructor
      · exact le_trans (List.countP_le_length _) (by decide)
      · exact le_trans (List.countP_le_length _) (by decide))

theorem updStatusFn_version (i : Nat) (st : DecisionRecordStatus)
    (r : DecisionRecord) : (updStatusFn i st r).version = r.version := by
  unfold updStatusFn
  split <;> rfl

theorem version_preserved_map {dbA dbB : DB} {j : Nat}
    {st : DecisionRecordStatus}
    (hrec : dbB.records = dbA.records.map (updStatusFn j st))
    {i : Nat} {r2 : DecisionRecord}
    (h2 : DatabaseService.get_decision_record dbB i = some r2) :
    ∃ r1, DatabaseService.get_decision_record dbA i = some r1 ∧
      r2.version = r1.version := by
  unfold DatabaseService.get_decision_record at h2 ⊢
  rw [hrec, find?_id_map (updStatusFn_id j st)] at h2
  cases h1 : dbA.records.find? (fun x => x.id == i) with
  | none =>
    rw [h1] at h2
    exact absurd h2 (by simp)
  | some r1 =>
    rw [h1] at h2
    refine ⟨r1, rfl, ?_⟩
    have hfr : updStatusFn j st r1 = r2 := by simpa using h2
    rw [← hfr, updStatusFn_version]

theorem version_bump_map {dbA dbB : DB} {j : Nat}
    {data : List (ContentField × Option String)} {v : Nat}
    (hrec : dbB.records = dbA.records.map (updContentFn j data (some v)))
    {i : Nat} {r2 : DecisionRecord}
    (h2 : DatabaseService.get_decision_record dbB i = some r2) :
    ∃ r1, DatabaseService.get_decision_record dbA i = some r1 ∧
      (r2.version = r1.version ∨ (r1.id = j ∧ r2.version = v)) := by
  unfold DatabaseService.get_decision_record at h2 ⊢
  rw [hrec, find?_id_map (updContentFn_id j data (some v))] at h2
  cases h1 : dbA.records.find? (fun x => x.id == i) with
  | none =>
    rw [h1] at h2
    exact absurd h2 (by simp)
  | some r1 =>
    rw [h1] at h2
    refine ⟨r1, rfl, ?_⟩
    have hfr : updContentFn j data (some v) r1 = r2 := by simpa using h2
    rw [← hfr]
    unfold updContentFn
    by_cases hid : (r1.id == j) = true
    · rw [if_pos hid]
      exact Or.inr ⟨by simpa using hid, rfl⟩
    · rw [if_neg hid]
      exact Or.inl rfl

theorem change_status_version_preserved {db : DB} {rid : Nat} {ns_str : String}
    {reason : Option String} {auto : Bool} {db' : DB} {res : ChangeStatusResult}
    (h : DecisionService.change_record_status db rid ns_str reason auto =
      .ok (db', res))
    {i : Nat} {r2 : DecisionRecord}
    (h2 : DatabaseService.get_decision_record db' i = some r2) :
    ∃ r1, DatabaseService.get_decision_record db i = some r1 ∧
      r2.version = r1.version := by
  obtain ⟨r, ns, hr, hns, hv, hres, hdisj⟩ := change_status_ok_shape h
  rcases hdisj with ⟨_, _, hdb, _⟩ | ⟨_, hsub⟩ | ⟨_, dbI, affI, hI, hfin⟩
  · subst hdb
    exact version_preserved_map rfl h2
  · rcases hsub with ⟨hdb, _⟩ | ⟨ca, _, _, _, hdb, _⟩
    · subst hdb
      exact version_preserved_map rfl h2
    · subst hdb
      obtain ⟨rm, hm, hv2⟩ := version_preserved_map rfl h2
      obtain ⟨r1, h1, hv1⟩ := version_preserved_map rfl hm
      exact ⟨r1, h1, by rw [hv2, hv1]⟩
  · rcases hfin with ⟨hdb, _⟩ | ⟨ca, _, _, _, hdb, _⟩
    · rcases hI with ⟨hdbI, _⟩ | ⟨ci, _, _, _, hdbI, _⟩
      · subst hdbI
        subst hdb
        exact version_preserved_map rfl h2
      · subst hdbI
        subst hdb
        obtain ⟨rm, hm, hv2⟩ := version_preserved_map rfl h2
        obtain ⟨r1, h1, hv1⟩ := version_preserved_map rfl hm
        exact ⟨r1, h1, by rw [hv2, hv1]⟩
    · rcases hI with ⟨hdbI, _⟩ | ⟨ci, _, _, _, hdbI, _⟩
      · subst hdbI
        subst hdb
        obtain ⟨rm, hm, hv2⟩ := version_preserved_map rfl h2
        obtain ⟨r1, h1, hv1⟩ := version_preserved_map rfl hm
        exact ⟨r1, h1, by rw [hv2, hv1]⟩
      · subst hdbI
        subst hdb
        obtain ⟨rm2, hm2, hv3⟩ := version_preserved_map rfl h2
        obtain ⟨rm, hm, hv2⟩ := version_preserved_map rfl hm2
        obtain ⟨r1, h1, hv1⟩ := version_preserved_map rfl hm
        exact ⟨r1, h1, by rw [hv3, hv2, hv1]⟩

/-- C7 (amended): record versions start at 1 and never decrease, jump or
gap: createRecord gives the new record version 1; every operation either
keeps a surviving record's version or raises it by exactly 1; a
successful content update either is a no-op returning the unchanged store
(when the supplied values equal the current ones — it does NOT bump the
version, contra the original claim) or bumps the version by exactly 1; a
successful revert always bumps by exactly 1; changeStatus never changes
any version. -/
theorem C7_version_dynamics (db : DB) :
    (∀ op i r2,
      DatabaseService.get_decision_record (applyOp db op) i = some r2 →
      (∃ r1, DatabaseService.get_decision_record db i = some r1 ∧
        (r2.version = r1.version ∨ r2.version = r1.version + 1)) ∨
      (DatabaseService.get_decision_record db i = none ∧ r2.version = 1)) ∧
    (∀ d c st db' rec,
      DecisionService.create_decision_record db d c st = .ok (db', rec) →
      rec.version = 1) ∧
    (∀ rid p db' res r1,
      DecisionService.update_decision_record db rid p = .ok (db', res) →
      DatabaseService.get_decision_record db rid = some r1 →
      (db' = db ∧ res = r1) ∨ res.version = r1.version + 1) ∧
    (∀ rid v reason db' res r1,
      DecisionService.revert_to_version db rid v reason = .ok (db', res) →
      DatabaseService.get_decision_record db rid = some r1 →
      res.version = r1.version + 1) ∧
    (∀ rid ns reason auto db' res i r2,
      DecisionService.change_record_status db rid ns reason auto =
        .ok (db', res) →
      DatabaseService.get_decision_record db' i = some r2 →
      ∃ r1, DatabaseService.get_decision_record db i = some r1 ∧
        r2.version = r1.version) := by
  refine ⟨?_, ?_, ?_, ?_, ?_⟩
  · intro op i r2 h2
    cases op with
    | createRecord d c st =>
      unfold applyOp at h2
      simp only [] at h2
      cases hc : DecisionService.create_decision_record db d c st with
      | error pe =>
        cases pe with
        | mk e dbe =>
          rw [hc] at h2
          simp only [] at h2
          rw [(create_error_shape hc).1] at h2
          exact Or.inl ⟨r2, h2, Or.inl rfl⟩
      | ok pr =>
        cases pr with
        | mk db' rec =>
          rw [hc] at h2
          simp only [] at h2
          obtain ⟨_, _, _, _, hver1, hrecords, _⟩ := create_ok_shape hc
          unfold DatabaseService.get_decision_record at h2 ⊢
          rw [hrecords, List.find?_append] at h2
          cases h1 : db.records.find? (fun x => x.id == i) with
          | some r1 =>
            rw [h1] at h2
            have : r1 = r2 := by simpa [Option.orElse] using h2
            exact Or.inl ⟨r1, rfl, Or.inl (by rw [this])⟩
          | none =>
            rw [h1] at h2
            have h2b : [rec].find? (fun x => x.id == i) = some r2 := by
              simpa [Option.orElse] using h2
            rw [List.find?_cons] at h2b
            cases hp : (rec.id == i) with
            | true =>
              rw [hp] at h2b
              simp only [] at h2b
              have : rec = r2 := by simpa using h2b
              exact Or.inr ⟨rfl, by rw [← this]; exact hver1⟩
            | false =>
              rw [hp] at h2b
              simp only [List.find?_nil] at h2b
              exact absurd h2b (by simp)
    | changeStatus rid ns reason auto =>
      unfold applyOp at h2
      simp only [] at h2
      cases hc : DecisionService.change_record_status db rid ns reason auto with
      | error pe =>
        cases pe with
        | mk e dbe =>
          rw [hc] at h2
          simp only [] at h2
          rw [(change_status_error_shape hc).1] at h2
          exact Or.inl ⟨r2, h2, Or.inl rfl⟩
      | ok pr =>
        cases pr with
        | mk db' res =>
          rw [hc] at h2
          simp only [] at h2
          obtain ⟨r1, h1, hveq⟩ := change_status_version_preserved hc h2
          exact Or.inl ⟨r1, h1, Or.inl hveq⟩
    | updateContent rid p =>
      unfold applyOp at h2
      simp only [] at h2
      cases hc : DecisionService.update_decision_record db rid p with
      | error pe =>
        cases pe with
        | mk e dbe =>
          rw [hc] at h2
          simp only [] at h2
          rw [(update_error_db hc).2] at h2
          exact Or.inl ⟨r2, h2, Or.inl rfl⟩
      | ok pr =>
        cases pr with
        | mk db' res =>
          rw [hc] at h2
          simp only [] at h2
          obtain ⟨r, hr, hdisj⟩ := update_ok_shape hc
          rcases hdisj with ⟨hdb, _⟩ | ⟨_, hrecords, _⟩
          · subst hdb
            exact Or.inl ⟨r2, h2, Or.inl rfl⟩
          · obtain ⟨r1, h1, hd⟩ := version_bump_map hrecords h2
            rcases hd with hsame | ⟨hid, hbump⟩
            · exact Or.inl ⟨r1, h1, Or.inl hsame⟩
            · have hii : r1.id = i := (get_decision_record_mem h1).2
              have hieq : i = rid := by rw [← hii, hid]
              subst hieq
              have hr1r : r1 = r := by
                rw [h1] at hr
                exact (Option.some.injEq _ _).mp hr
              exact Or.inl ⟨r1, h1, Or.inr (by rw [hbump, hr1r])⟩
    | revertToVersion rid v reason =>
      unfold applyOp at h2
      simp only [] at h2
      cases hc : DecisionService.revert_to_version db rid v reason with
      | error pe =>
        cases pe with
        | mk e dbe =>
          rw [hc] at h2
          simp only [] at h2
          rw [(revert_error_db hc).2] at h2
          exact Or.inl ⟨r2, h2, Or.inl rfl⟩
      | ok pr =>
        cases pr with
        | mk db' res =>
          rw [hc] at h2
          simp only [] at h2
          cases hbn : DatabaseService.get_record_version_by_number db rid v with
          | none =>
            have hat : DecisionService.get_record_at_version db rid v = none := by
              unfold DecisionService.get_record_at_version
              rw [hbn]
              rfl
            rw [show DecisionService.revert_to_version db rid v reason =
                .error (.notFound, db) from by
              unfold DecisionService.revert_to_version
              rw [hat]] at hc
            exact absurd hc (by simp)
          | some vrec =>
            cases hrr : DatabaseService.get_decision_record db rid with
            | none =>
              have hat : DecisionService.get_record_at_version db rid v =
                  some vrec.snapshot := by
                unfold DecisionService.get_record_at_version
                rw [hbn]
                rfl
              rw [show DecisionService.revert_to_version db rid v reason =
                  .error (.notFound, db) from by
                unfold DecisionService.revert_to_version
                rw [hat]
                simp only []
                rw [hrr]] at hc
              exact absurd hc (by simp)
            | some r =>
              obtain ⟨db'0, heq, hrecords, _⟩ := revert_ok_shape hrr hbn
              rw [heq] at hc
              have hpair := (Except.ok.injEq _ _).mp hc
              injection hpair with hdb0 hres0
              rw [hdb0] at hrecords
              obtain ⟨r1, h1, hd⟩ := version_bump_map hrecords h2
              rcases hd with hsame | ⟨hid, hbump⟩
              · exact Or.inl ⟨r1, h1, Or.inl hsame⟩
              · have hii : r1.id = i := (get_decision_record_mem h1).2
                have hieq : i = rid := by rw [← hii, hid]
                subst hieq
                have hr1r : r1 = r := by
                  rw [h1] at hrr
                  exact (Option.some.injEq _ _).mp hrr
                exact Or.inl ⟨r1, h1, Or.inr (by rw [hbump, hr1r])⟩
  · intro d c st db' rec hc
    exact (create_ok_shape hc).2.2.2.2.1
  · intro rid p db' res r1 hc hr1
    obtain ⟨r, hr, hdisj⟩ := update_ok_shape hc
    have hrr1 : r = r1 := by
      rw [hr] at hr1
      exact (Option.some.injEq _ _).mp hr1
    subst hrr1
    rcases hdisj with ⟨hdb, hres⟩ | ⟨hres, _⟩
    · exact Or.inl ⟨hdb, hres⟩
    · have hrid : r.id = rid := (get_decision_record_mem hr).2
      rw [hres]
      refine Or.inr ?_
      unfold updContentFn
      rw [if_pos (by simp [hrid] : (r.id == rid) = true)]
      rfl
  · intro rid v reason db' res r1 hc hr1
    cases hbn : DatabaseService.get_record_version_by_number db rid v with
    | none =>
      have hat : DecisionService.get_record_at_version db rid v = none := by
        unfold DecisionService.get_record_at_version
        rw [hbn]
        rfl
      rw [show DecisionService.revert_to_version db rid v reason =
          .error (.notFound, db) from by
        unfold DecisionService.revert_to_version
        rw [hat]] at hc
      exact absurd hc (by simp)
    | some vrec =>
      obtain ⟨db'0, heq, _⟩ := revert_ok_shape hr1 hbn
      rw [heq] at hc
      have hpair := (Except.ok.injEq _ _).mp hc
      injection hpair with hdb0 hres0
      rw [← hres0]
  · intro rid ns reason auto db' res i r2 hc h2
    exact change_status_version_preserved hc h2

/-- C7 counterexample: submitting the record's current content is a
SUCCESSFUL update, yet it leaves the version at 1 instead of setting it
to previous+1 — the version sequence of a record is not bumped by every
successful update call. -/
theorem C7_counterexample :
    DecisionService.update_decision_record oneRecordDB 0 sampleContent =
      .ok (oneRecordDB, record0) ∧
    record0.version = 1 ∧
    (DatabaseService.get_decision_record
      (applyOp oneRecordDB (.updateContent 0 sampleContent)) 0).map
        (fun r => r.version) = some 1 := by
  exact ⟨rfl, rfl, rfl⟩

/-- Witness for C7: running the rationale update on oneRecordDB moves
record 0 from version 1 to version 2. -/
theorem C7_version_dynamics_witness :
    (∃ r1, DatabaseService.get_decision_record oneRecordDB 0 = some r1 ∧
      (({ id := 0, decision_id := 1,
          content := ⟨none, none, some "Use Postgres",
            some "because benchmarks", none, none, none, none, none⟩,
          status := DecisionRecordStatus.proposed,
          version := 2 } : DecisionRecord).version = r1.version ∨
        ({ id := 0, decision_id := 1,
           content := ⟨none, none, some "Use Postgres",
             some "because benchmarks", none, none, none, none, none⟩,
           status := DecisionRecordStatus.proposed,
           version := 2 } : DecisionRecord).version = r1.version + 1)) ∨
    (DatabaseService.get_decision_record oneRecordDB 0 = none ∧
      ({ id := 0, decision_id := 1,
         content := ⟨none, none, some "Use Postgres",
           some "because benchmarks", none, none, none, none, none⟩,
         status := DecisionRecordStatus.proposed,
         version := 2 } : DecisionRecord).version = 1) :=
  (C7_version_dynamics oneRecordDB).1 (.updateContent 0 rationalePayload) 0
    { id := 0, decision_id := 1,
      content := ⟨none, none, some "Use Postgres",
        some "because benchmarks", none, none, none, none, none⟩,
      status := DecisionRecordStatus.proposed, version := 2 }
    (by rfl)

theorem valid_target {a b : DecisionRecordStatus}
    (h : is_valid_transition a b = true) :
    b = .accepted ∨ b = .rejected ∨ b = .implemented ∨ b = .deprecated := by
  revert h
  cases a <;> cases b <;> decide

theorem valid_to_accepted {a : DecisionRecordStatus}
    (h : is_valid_transition a .accepted = true) : a = .proposed := by
  revert h
  cases a <;> decide

theorem valid_to_implemented {a : DecisionRecordStatus}
    (h : is_valid_transition a .implemented = true) : a = .accepted := by
  revert h
  cases a <;> decide

theorem isAcceptedIn_iff {d : Nat} {x : DecisionRecord} :
    isAcceptedIn d x = true ↔ x.decision_id = d ∧ x.status = .accepted := by
  simp [isAcceptedIn]

theorem isImplementedIn_iff {d : Nat} {x : DecisionRecord} :
    isImplementedIn d x = true ↔ x.decision_id = d ∧
      (x.status = .implemented ∨ x.status = .implemented_inferred) := by
  simp [isImplementedIn]

theorem if_pa_zero_status {d0 : Nat} {x : DecisionRecord}
    (h : x.status ≠ .accepted) :
    (if isAcceptedIn d0 x = true then 1 else 0) = 0 := by
  simp [isAcceptedIn, h]

theorem if_pa_zero_dec {d0 : Nat} {x : DecisionRecord}
    (h : x.decision_id ≠ d0) :
    (if isAcceptedIn d0 x = true then 1 else 0) = 0 := by
  simp [isAcceptedIn, h]

theorem if_pa_one {d0 : Nat} {x : DecisionRecord}
    (h1 : x.decision_id = d0) (h2 : x.status = .accepted) :
    (if isAcceptedIn d0 x = true then 1 else 0) = 1 := by
  simp [isAcceptedIn, h1, h2]

theorem if_pi_zero_status {d0 : Nat} {x : DecisionRecord}
    (h1 : x.status ≠ .implemented) (h2 : x.status ≠ .implemented_inferred) :
    (if isImplementedIn d0 x = true then 1 else 0) = 0 := by
  simp [isImplementedIn, h1, h2]

theorem if_pi_zero_dec {d0 : Nat} {x : DecisionRecord}
    (h : x.decision_id ≠ d0) :
    (if isImplementedIn d0 x = true then 1 else 0) = 0 := by
  simp [isImplementedIn, h]

theorem if_pi_one {d0 : Nat} {x : DecisionRecord}
    (h1 : x.decision_id = d0)
    (h2 : x.status = .implemented ∨ x.status = .implemented_inferred) :
    (if isImplementedIn d0 x = true then 1 else 0) = 1 := by
  rcases h2 with h2 | h2 <;> simp [isImplementedIn, h1, h2]

theorem one_le_countP_of_mem {α : Type} {p : α → Bool} {l : List α} {a : α}
    (ha : a ∈ l) (hpa : p a = true) : 1 ≤ l.countP p :=
  List.countP_pos_iff.mpr ⟨a, ha, hpa⟩

theorem mem_map_updStatusFn_of_ne {rs : List DecisionRecord}
    {s : DecisionRecord} {j : Nat} {st : DecisionRecordStatus}
    (hs : s ∈ rs) (h : s.id ≠ j) : s ∈ rs.map (updStatusFn j st) := by
  rw [← updStatusFn_of_ne j st h]
  exact List.mem_map_of_mem _ hs

theorem nodup_map_updStatusFn {rs : List DecisionRecord} {j : Nat}
    {st : DecisionRecordStatus}
    (h : (rs.map (fun r => r.id)).Nodup) :
    ((rs.map (updStatusFn j st)).map (fun r => r.id)).Nodup := by
  rw [map_id_of_id_preserved (updStatusFn_id j st)]
  exact h

theorem ofString_safe {s : String} {v : DecisionRecordStatus}
    (h : DecisionRecordStatus.ofString s = some v)
    (h1 : s ≠ "accepted") (h2 : s ≠ "implemented")
    (h3 : s ≠ "implemented_inferred") :
    v ≠ .accepted ∧ v ≠ .implemented ∧ v ≠ .implemented_inferred := by
  unfold DecisionRecordStatus.ofString at h
  split_ifs at h
  all_goals
    injection h with h
  all_goals
    subst h
  all_goals
    exact ⟨by decide, by decide, by decide⟩

theorem WF_of_map_nextId {db db2 : DB} (hwf : WF db)
    {f : DecisionRecord → DecisionRecord}
    (hrec : db2.records = db.records.map f) (hf : ∀ r, (f r).id = r.id)
    (hn : db.nextId ≤ db2.nextId) : WF db2 := by
  constructor
  · rw [hrec, map_id_of_id_preserved hf]
    exact hwf.1
  · intro x hx
    rw [hrec] at hx
    obtain ⟨y, hy, rfl⟩ := List.mem_map.mp hx
    rw [hf y]
    exact lt_of_lt_of_le (hwf.2 y hy) hn

theorem WF_finalize {db : DB} (hwf : WF db) (rid : Nat)
    (old ns : DecisionRecordStatus) (reason : Option String) :
    WF (finalizeDB db rid old ns reason) :=
  WF_of_map_nextId hwf rfl (updStatusFn_id rid ns)
    (by show db.nextId ≤ db.nextId + 1; omega)

theorem WF_cascadeReject {db : DB} (hwf : WF db) (rid : Nat)
    (ca : DecisionRecord) : WF (cascadeRejectDB db rid ca) :=
  WF_of_map_nextId hwf rfl (updStatusFn_id _ _)
    (by show db.nextId ≤ db.nextId + 2; omega)

theorem WF_cascadeDeprecate {db : DB} (hwf : WF db) (rid : Nat)
    (s : DecisionRecord) : WF (cascadeDeprecateDB db rid s) :=
  WF_of_map_nextId hwf rfl (updStatusFn_id _ _)
    (by show db.nextId ≤ db.nextId + 2; omega)

theorem change_status_WF {db : DB} {rid : Nat} {ns_str : String}
    {reason : Option String} {auto : Bool} {db' : DB} {res : ChangeStatusResult}
    (hwf : WF db)
    (h : DecisionService.change_record_status db rid ns_str reason auto =
      .ok (db', res)) :
    WF db' := by
  obtain ⟨r, ns, hr, hns, hv, hres, hdisj⟩ := change_status_ok_shape h
  rcases hdisj with ⟨_, _, hdb, _⟩ | ⟨_, hsub⟩ | ⟨_, dbI, affI, hI, hfin⟩
  · subst hdb
    exact WF_finalize hwf _ _ _ _
  · rcases hsub with ⟨hdb, _⟩ | ⟨ca, _, _, _, hdb, _⟩
    · subst hdb
      exact WF_finalize hwf _ _ _ _
    · subst hdb
      exact WF_finalize (WF_cascadeReject hwf _ _) _ _ _ _
  · rcases hI with ⟨hdbI, _⟩ | ⟨ci, _, _, _, hdbI, _⟩
    · subst hdbI
      rcases hfin with ⟨hdb, _⟩ | ⟨ca, _, _, _, hdb, _⟩
      · subst hdb
        exact WF_finalize hwf _ _ _ _
      · subst hdb
        exact WF_finalize (WF_cascadeDeprecate hwf _ _) _ _ _ _
    · subst hdbI
      rcases hfin with ⟨hdb, _⟩ | ⟨ca, _, _, _, hdb, _⟩
      · subst hdb
        exact WF_finalize (WF_cascadeDeprecate hwf _ _) _ _ _ _
      · subst hdb
        exact WF_finalize
          (WF_cascadeDeprecate (WF_cascadeDeprecate hwf _ _) _ _) _ _ _ _

theorem change_status_invariant {db : DB} {rid : Nat} {ns_str : String}
    {reason : Option String} {auto : Bool} {db' : DB} {res : ChangeStatusResult}
    (hwf : WF db) (hsi : StatusInvariant db)
    (h : DecisionService.change_record_status db rid ns_str reason auto =
      .ok (db', res)) :
    StatusInvariant db' := by
  obtain ⟨r, ns, hr, hns, hv, hres, hdisj⟩ := change_status_ok_shape h
  have hrid : r.id = rid := (get_decision_record_mem hr).2
  have hrmem : r ∈ db.records := (get_decision_record_mem hr).1
  intro d0
  have hbA := (hsi d0).1
  have hbI := (hsi d0).2
  unfold accepted_count at hbA
  unfold implemented_count at hbI
  rcases hdisj with ⟨hne_acc, hne_imp, hdb, _⟩ | ⟨hnsacc, hsub⟩ |
    ⟨hnsimp, dbI, affI, hI, hfin⟩
  · subst hdb
    have hni : ns ≠ .implemented_inferred := by
      rcases valid_target hv with hx | hx | hx | hx
      · exact absurd hx hne_acc
      · rw [hx]
        decide
      · exact absurd hx hne_imp
      · rw [hx]
        decide
    constructor
    · show (db.records.map (updStatusFn rid ns)).countP (isAcceptedIn d0) ≤ 1
      rw [← hrid]
      have hstepA := countP_map_updStatusFn (isAcceptedIn d0) ns db.records
        hwf.1 r hrmem
      rw [show (if isAcceptedIn d0 { r with status := ns } = true then 1
          else 0) = 0 from if_pa_zero_status hne_acc] at hstepA
      obtain ⟨k, hk⟩ : ∃ k, (if isAcceptedIn d0 r = true then 1 else 0) = k :=
        ⟨_, rfl⟩
      rw [hk] at hstepA
      omega
    · show (db.records.map (updStatusFn rid ns)).countP (isImplementedIn d0) ≤ 1
      rw [← hrid]
      have hstepI := countP_map_updStatusFn (isImplementedIn d0) ns db.records
        hwf.1 r hrmem
      rw [show (if isImplementedIn d0 { r with status := ns } = true then 1
          else 0) = 0 from if_pi_zero_status hne_imp hni] at hstepI
      obtain ⟨k, hk⟩ : ∃ k, (if isImplementedIn d0 r = true then 1 else 0) = k :=
        ⟨_, rfl⟩
      rw [hk] at hstepI
      omega
  · subst hnsacc
    have hprop : r.status = .proposed := valid_to_accepted hv
    rcases hsub with ⟨hdb, _, hinner⟩ | ⟨ca, hca, hcane, hauto, hdb, _⟩
    · rcases hinner with hnone | ⟨ca, hca, hcaid⟩
      · subst hdb
        constructor
        · show (db.records.map (updStatusFn rid DecisionRecordStatus.accepted)).countP
            (isAcceptedIn d0) ≤ 1
          rw [← hrid]
          have hstepA := countP_map_updStatusFn (isAcceptedIn d0) .accepted
            db.records hwf.1 r hrmem
          rw [show (if isAcceptedIn d0 r = true then 1 else 0) = 0 from
            if_pa_zero_status (by rw [hprop]; decide)] at hstepA
          by_cases hd : r.decision_id = d0
          · have hz : db.records.countP (isAcceptedIn d0) = 0 := by
              have hz0 := accepted_count_zero_of_none hnone
              unfold accepted_count at hz0
              rw [hd] at hz0
              exact hz0
            have hle : (if isAcceptedIn d0
                { r with status := DecisionRecordStatus.accepted } = true
                then 1 else 0) ≤ 1 := by
              split <;> omega
            omega
          · rw [show (if isAcceptedIn d0
                { r with status := DecisionRecordStatus.accepted } = true
                then 1 else 0) = 0 from if_pa_zero_dec hd] at hstepA
            omega
        · show (db.records.map (updStatusFn rid DecisionRecordStatus.accepted)).countP
            (isImplementedIn d0) ≤ 1
          rw [← hrid]
          have hstepI := countP_map_updStatusFn (isImplementedIn d0) .accepted
            db.records hwf.1 r hrmem
          rw [show (if isImplementedIn d0 r = true then 1 else 0) = 0 from
            if_pi_zero_status (by rw [hprop]; decide) (by rw [hprop]; decide)]
            at hstepI
          rw [show (if isImplementedIn d0
              { r with status := DecisionRecordStatus.accepted } = true
              then 1 else 0) = 0 from if_pi_zero_status (by simp) (by simp)]
            at hstepI
          omega
      · obtain ⟨hcam, hcap⟩ := current_accepted_mem hca
        have hceq : ca = r :=
          List.inj_on_of_nodup_map hwf.1 hcam hrmem (by rw [hcaid, hrid])
        have hst : ca.status = .accepted := (isAcceptedIn_iff.mp hcap).2
        rw [hceq, hprop] at hst
        exact absurd hst (by decide)
    · subst hdb
      obtain ⟨hcam, hcap⟩ := current_accepted_mem hca
      obtain ⟨hcad, hcas⟩ := isAcceptedIn_iff.mp hcap
      have hrne : r.id ≠ ca.id := by
        rw [hrid]
        exact fun hh => hcane hh.symm
      have hr1mem : r ∈ db.records.map (updStatusFn ca.id .rejected) :=
        mem_map_updStatusFn_of_ne hrmem hrne
      constructor
      · show ((db.records.map (updStatusFn ca.id DecisionRecordStatus.rejected)).map
          (updStatusFn rid DecisionRecordStatus.accepted)).countP
          (isAcceptedIn d0) ≤ 1
        rw [← hrid]
        have hstep1 := countP_map_updStatusFn (isAcceptedIn d0) .rejected
          db.records hwf.1 ca hcam
        have hstep2 := countP_map_updStatusFn (isAcceptedIn d0) .accepted
          (db.records.map (updStatusFn ca.id .rejected))
          (nodup_map_updStatusFn hwf.1) r hr1mem
        rw [show (if isAcceptedIn d0
            { ca with status := DecisionRecordStatus.rejected } = true
            then 1 else 0) = 0 from if_pa_zero_status (by simp)] at hstep1
        rw [show (if isAcceptedIn d0 r = true then 1 else 0) = 0 from
          if_pa_zero_status (by rw [hprop]; decide)] at hstep2
        by_cases hd : r.decision_id = d0
        · rw [show (if isAcceptedIn d0 ca = true then 1 else 0) = 1 from
            if_pa_one (by rw [hcad, hd]) hcas] at hstep1
          rw [show (if isAcceptedIn d0
              { r with status := DecisionRecordStatus.accepted } = true
              then 1 else 0) = 1 from if_pa_one hd rfl] at hstep2
          omega
        · rw [show (if isAcceptedIn d0 ca = true then 1 else 0) = 0 from
            if_pa_zero_dec (by rw [hcad]; exact hd)] at hstep1
          rw [show (if isAcceptedIn d0
              { r with status := DecisionRecordStatus.accepted } = true
              then 1 else 0) = 0 from if_pa_zero_dec hd] at hstep2
          omega
      · show ((db.records.map (updStatusFn ca.id DecisionRecordStatus.rejected)).map
          (updStatusFn rid DecisionRecordStatus.accepted)).countP
          (isImplementedIn d0) ≤ 1
        rw [← hrid]
        have hstep1 := countP_map_updStatusFn (isImplementedIn d0) .rejected
          db.records hwf.1 ca hcam
        have hstep2 := countP_map_updStatusFn (isImplementedIn d0) .accepted
          (db.records.map (updStatusFn ca.id .rejected))
          (nodup_map_updStatusFn hwf.1) r hr1mem
        rw [show (if isImplementedIn d0
            { ca with status := DecisionRecordStatus.rejected } = true
            then 1 else 0) = 0 from if_pi_zero_status (by simp) (by simp)]
          at hstep1
        rw [show (if isImplementedIn d0 ca = true then 1 else 0) = 0 from
          if_pi_zero_status (by rw [hcas]; decide) (by rw [hcas]; decide)]
          at hstep1
        rw [show (if isImplementedIn d0 r = true then 1 else 0) = 0 from
          if_pi_zero_status (by rw [hprop]; decide) (by rw [hprop]; decide)]
          at hstep2
        rw [show (if isImplementedIn d0
            { r with status := DecisionRecordStatus.accepted } = true
            then 1 else 0) = 0 from if_pi_zero_status (by simp) (by simp)]
          at hstep2
        omega
  · subst hnsimp
    have hacc2 : r.status = .accepted := valid_to_implemented hv
    rcases hI with ⟨hdbIeq, haffI, hIfacts⟩ | ⟨ci, hci, hcine, hauto, hdbIeq, haffI⟩
    · rw [hdbIeq] at hfin
      have hIzero : r.decision_id = d0 →
          db.records.countP (isImplementedIn d0) = 0 := by
        intro hd
        rcases hIfacts with hnone | ⟨ci, hci, hciid⟩
        · have hz0 := implemented_count_zero_of_none hnone
          unfold implemented_count at hz0
          rw [hd] at hz0
          exact hz0
        · obtain ⟨hcim, hcip⟩ := current_implemented_mem hci
          have hceq : ci = r :=
            List.inj_on_of_nodup_map hwf.1 hcim hrmem (by rw [hciid, hrid])
          rcases (isImplementedIn_iff.mp hcip).2 with hx | hx <;>
            · rw [hceq, hacc2] at hx
              exact absurd hx (by decide)
      rcases hfin with ⟨hdb, _, hAfacts⟩ | ⟨ca, hca, hcane, hauto2, hdb, _⟩
      · subst hdb
        constructor
        · show (db.records.map (updStatusFn rid DecisionRecordStatus.implemented)).countP
            (isAcceptedIn d0) ≤ 1
          rw [← hrid]
          have hstepA := countP_map_updStatusFn (isAcceptedIn d0) .implemented
            db.records hwf.1 r hrmem
          rw [show (if isAcceptedIn d0
              { r with status := DecisionRecordStatus.implemented } = true
              then 1 else 0) = 0 from if_pa_zero_status (by simp)] at hstepA
          obtain ⟨k, hk⟩ : ∃ k, (if isAcceptedIn d0 r = true then 1 else 0) = k :=
            ⟨_, rfl⟩
          rw [hk] at hstepA
          omega
        · show (db.records.map (updStatusFn rid DecisionRecordStatus.implemented)).countP
            (isImplementedIn d0) ≤ 1
          rw [← hrid]
          have hstepI := countP_map_updStatusFn (isImplementedIn d0) .implemented
            db.records hwf.1 r hrmem
          rw [show (if isImplementedIn d0 r = true then 1 else 0) = 0 from
            if_pi_zero_status (by rw [hacc2]; decide) (by rw [hacc2]; decide)]
            at hstepI
          by_cases hd : r.decision_id = d0
          · have hz := hIzero hd
            have hle : (if isImplementedIn d0
                { r with status := DecisionRecordStatus.implemented } = true
                then 1 else 0) ≤ 1 := by
              split <;> omega
            omega
          · rw [show (if isImplementedIn d0
                { r with status := DecisionRecordStatus.implemented } = true
                then 1 else 0) = 0 from if_pi_zero_dec hd] at hstepI
            omega
      · subst hdb
        obtain ⟨hcam, hcap⟩ := current_accepted_mem hca
        have hner : r ≠ ca := by
          intro he
          exact hcane (by rw [← he, hrid])
        have h2 := two_le_countP_of_ne hrmem hcam hner
          (isAcceptedIn_iff.mpr ⟨rfl, hacc2⟩) hcap
        have hbr := (hsi r.decision_id).1
        unfold accepted_count at hbr
        exact absurd hbr (by omega)
    · subst hdbIeq
      obtain ⟨hcim, hcip⟩ := current_implemented_mem hci
      obtain ⟨hcid, hcis⟩ := isImplementedIn_iff.mp hcip
      have hcins : ci.status ≠ .accepted := by
        rcases hcis with hx | hx <;> rw [hx] <;> decide
      have hrne : r.id ≠ ci.id := by
        rw [hrid]
        exact fun hh => hcine hh.symm
      have hr1mem : r ∈ db.records.map (updStatusFn ci.id .deprecated) :=
        mem_map_updStatusFn_of_ne hrmem hrne
      rcases hfin with ⟨hdb, _, hAfacts⟩ | ⟨ca, hca, hcane, hauto2, hdb, _⟩
      · subst hdb
        constructor
        · show ((db.records.map (updStatusFn ci.id DecisionRecordStatus.deprecated)).map
            (updStatusFn rid DecisionRecordStatus.implemented)).countP
            (isAcceptedIn d0) ≤ 1
          rw [← hrid]
          have hstep1 := countP_map_updStatusFn (isAcceptedIn d0) .deprecated
            db.records hwf.1 ci hcim
          have hstep2 := countP_map_updStatusFn (isAcceptedIn d0) .implemented
            (db.records.map (updStatusFn ci.id .deprecated))
            (nodup_map_updStatusFn hwf.1) r hr1mem
          rw [show (if isAcceptedIn d0 ci = true then 1 else 0) = 0 from
            if_pa_zero_status hcins] at hstep1
          rw [show (if isAcceptedIn d0
              { ci with status := DecisionRecordStatus.deprecated } = true
              then 1 else 0) = 0 from if_pa_zero_status (by simp)] at hstep1
          rw [show (if isAcceptedIn d0
              { r with status := DecisionRecordStatus.implemented } = true
              then 1 else 0) = 0 from if_pa_zero_status (by simp)] at hstep2
          obtain ⟨k, hk⟩ : ∃ k, (if isAcceptedIn d0 r = true then 1 else 0) = k :=
            ⟨_, rfl⟩
          rw [hk] at hstep2
          omega
        · show ((db.records.map (updStatusFn ci.id DecisionRecordStatus.deprecated)).map
            (updStatusFn rid DecisionRecordStatus.implemented)).countP
            (isImplementedIn d0) ≤ 1
          rw [← hrid]
          have hstep1 := countP_map_updStatusFn (isImplementedIn d0) .deprecated
            db.records hwf.1 ci hcim
          have hstep2 := countP_map_updStatusFn (isImplementedIn d0) .implemented
            (db.records.map (updStatusFn ci.id .deprecated))
            (nodup_map_updStatusFn hwf.1) r hr1mem
          rw [show (if isImplementedIn d0
              { ci with status := DecisionRecordStatus.deprecated } = true
              then 1 else 0) = 0 from if_pi_zero_status (by simp) (by simp)]
            at hstep1
          rw [show (if isImplementedIn d0 r = true then 1 else 0) = 0 from
            if_pi_zero_status (by rw [hacc2]; decide) (by rw [hacc2]; decide)]
            at hstep2
          by_cases hd : r.decision_id = d0
          · rw [show (if isImplementedIn d0 ci = true then 1 else 0) = 1 from
              if_pi_one (by rw [hcid, hd]) hcis] at hstep1
            rw [show (if isImplementedIn d0
                { r with status := DecisionRecordStatus.implemented } = true
                then 1 else 0) = 1 from if_pi_one hd (Or.inl rfl)] at hstep2
            omega
          · rw [show (if isImplementedIn d0 ci = true then 1 else 0) = 0 from
              if_pi_zero_dec (by rw [hcid]; exact hd)] at hstep1
            rw [show (if isImplementedIn d0
                { r with status := DecisionRecordStatus.implemented } = true
                then 1 else 0) = 0 from if_pi_zero_dec hd] at hstep2
            omega
      · obtain ⟨hcam2, hcap2⟩ := current_accepted_mem hca
        have hcam2' : ca ∈ db.records.map (updStatusFn ci.id .deprecated) :=
          hcam2
        obtain ⟨x, hx, hxe⟩ := List.mem_map.mp hcam2'
        by_cases hxc : x.id = ci.id
        · have hcadep : ca.status = .deprecated := by
            rw [← hxe]
            unfold updStatusFn
            rw [if_pos (by simp [hxc])]
          have hst := (isAcceptedIn_iff.mp hcap2).2
          exact absurd (hcadep.symm.trans hst) (by decide)
        · have hxe2 : ca = x := by
            rw [← hxe, updStatusFn_of_ne _ _ hxc]
          have hner : r ≠ ca := by
            intro he
            exact hcane (by rw [← he, hrid])
          have h2 := two_le_countP_of_ne hrmem (hxe2 ▸ hx) hner
            (isAcceptedIn_iff.mpr ⟨rfl, hacc2⟩) hcap2
          have hbr := (hsi r.decision_id).1
          unfold accepted_count at hbr
          exact absurd hbr (by omega)

theorem create_WF {db : DB} {d : Nat} {c : Content} {st : Option String}
    {db' : DB} {rec : DecisionRecord} (hwf : WF db)
    (h : DecisionService.create_decision_record db d c st = .ok (db', rec)) :
    WF db' := by
  obtain ⟨_, hrecid, _, _, _, hrecords, _, hnext, _⟩ := create_ok_shape h
  constructor
  · rw [hrecords, List.map_append, List.nodup_append]
    refine ⟨hwf.1, List.nodup_singleton _, ?_⟩
    intro a ha hb
    simp only [List.map_cons, List.map_nil, List.mem_singleton] at hb
    obtain ⟨x, hx, rfl⟩ := List.mem_map.mp ha
    have hlt := hwf.2 x hx
    rw [hb, hrecid] at hlt
    omega
  · intro x hx
    rw [hrecords] at hx
    rcases List.mem_append.mp hx with hxl | hxr
    · have := hwf.2 x hxl
      rw [hnext]
      omega
    · rw [List.mem_singleton] at hxr
      subst hxr
      rw [hnext, hrecid]
      omega

theorem create_invariant {db : DB} {d : Nat} {c : Content} {st : Option String}
    {db' : DB} {rec : DecisionRecord} (hsi : StatusInvariant db)
    (hsafe : SafeOp (.createRecord d c st) = true)
    (h : DecisionService.create_decision_record db d c st = .ok (db', rec)) :
    StatusInvariant db' := by
  obtain ⟨_, _, _, _, _, hrecords, _, _, _, _, hstnone, hstsome⟩ :=
    create_ok_shape h
  have hrecsafe : rec.status ≠ .accepted ∧ rec.status ≠ .implemented ∧
      rec.status ≠ .implemented_inferred := by
    cases st with
    | none =>
      have hp := hstnone (Or.inl rfl)
      rw [hp]
      exact ⟨by decide, by decide, by decide⟩
    | some s =>
      by_cases hse : s = ""
      · subst hse
        have hp := hstnone (Or.inr rfl)
        rw [hp]
        exact ⟨by decide, by decide, by decide⟩
      · have hofs := hstsome s rfl hse
        have hsafe0 : (¬s = "accepted" ∧ ¬s = "implemented") ∧
            ¬s = "implemented_inferred" := by
          unfold SafeOp at hsafe
          simpa using hsafe
        exact ofString_safe hofs hsafe0.1.1 hsafe0.1.2 hsafe0.2
  intro d0
  have hbA := (hsi d0).1
  have hbI := (hsi d0).2
  unfold accepted_count at hbA ⊢
  unfold implemented_count at hbI ⊢
  rw [hrecords, List.countP_append, List.countP_append]
  have hA0 : List.countP (isAcceptedIn d0) [rec] = 0 := by
    simp [List.countP_cons, isAcceptedIn, hrecsafe.1]
  have hI0 : List.countP (isImplementedIn d0) [rec] = 0 := by
    simp [List.countP_cons, isImplementedIn, hrecsafe.2.1, hrecsafe.2.2]
  rw [hA0, hI0]
  exact ⟨by omega, by omega⟩

theorem pa_updContentFn (d0 j : Nat)
    (data : List (ContentField × Option String)) (v : Option Nat) :
    ∀ x, isAcceptedIn d0 (updContentFn j data v x) = isAcceptedIn d0 x :=
  fun x => by
    unfold isAcceptedIn
    rw [updContentFn_status, updContentFn_decision]

theorem pi_updContentFn (d0 j : Nat)
    (data : List (ContentField × Option String)) (v : Option Nat) :
    ∀ x, isImplementedIn d0 (updContentFn j data v x) = isImplementedIn d0 x :=
  fun x => by
    unfold isImplementedIn
    rw [updContentFn_status, updContentFn_decision]

theorem invariant_of_updContent_records {db db2 : DB} {j : Nat}
    {data : List (ContentField × Option String)} {v : Option Nat}
    (hsi : StatusInvariant db)
    (hrec : db2.records = db.records.map (updContentFn j data v)) :
    StatusInvariant db2 := by
  intro d0
  have hbA := (hsi d0).1
  have hbI := (hsi d0).2
  unfold accepted_count at hbA ⊢
  unfold implemented_count at hbI ⊢
  rw [hrec, countP_map_of_pred_eq _ (pa_updContentFn d0 j data v),
    countP_map_of_pred_eq _ (pi_updContentFn d0 j data v)]
  exact ⟨hbA, hbI⟩

theorem update_WF {db : DB} {rid : Nat} {p : Content} {db' : DB}
    {res : DecisionRecord} (hwf : WF db)
    (h : DecisionService.update_decision_record db rid p = .ok (db', res)) :
    WF db' := by
  obtain ⟨r, hr, hdisj⟩ := update_ok_shape h
  rcases hdisj with ⟨hdb, _⟩ | ⟨_, hrecords, _, _, _, hnext, _⟩
  · subst hdb
    exact hwf
  · exact WF_of_map_nextId hwf hrecords (updContentFn_id _ _ _) hnext

theorem update_invariant {db : DB} {rid : Nat} {p : Content} {db' : DB}
    {res : DecisionRecord} (hsi : StatusInvariant db)
    (h : DecisionService.update_decision_record db rid p = .ok (db', res)) :
    StatusInvariant db' := by
  obtain ⟨r, hr, hdisj⟩ := update_ok_shape h
  rcases hdisj with ⟨hdb, _⟩ | ⟨_, hrecords, _⟩
  · subst hdb
    exact hsi
  · exact invariant_of_updContent_records hsi hrecords

theorem revert_shape_of_ok {db : DB} {rid version : Nat}
    {reason : Option String} {db' : DB} {res : DecisionRecord}
    (h : DecisionService.revert_to_version db rid version reason =
      .ok (db', res)) :
    ∃ r vrec, DatabaseService.get_decision_record db rid = some r ∧
      DatabaseService.get_record_version_by_number db rid version = some vrec ∧
      res = (⟨r.id, r.decision_id, vrec.snapshot.content, r.status,
        r.version + 1⟩ : DecisionRecord) ∧
      db'.records = db.records.map (updContentFn rid
        (updatable_fields.map (fun f => (f, vrec.snapshot.content.get f)))
        (some (r.version + 1))) ∧
      db.nextId ≤ db'.nextId := by
  cases hbn : DatabaseService.get_record_version_by_number db rid version with
  | none =>
    have hat : DecisionService.get_record_at_version db rid version = none := by
      unfold DecisionService.get_record_at_version
      rw [hbn]
      rfl
    rw [show DecisionService.revert_to_version db rid version reason =
        .error (.notFound, db) from by
      unfold DecisionService.revert_to_version
      rw [hat]] at h
    exact absurd h (by simp)
  | some vrec =>
    cases hrr : DatabaseService.get_decision_record db rid with
    | none =>
      have hat : DecisionService.get_record_at_version db rid version =
          some vrec.snapshot := by
        unfold DecisionService.get_record_at_version
        rw [hbn]
        rfl
      rw [show DecisionService.revert_to_version db rid version reason =
          .error (.notFound, db) from by
        unfold DecisionService.revert_to_version
        rw [hat]
        simp only []
        rw [hrr]] at h
      exact absurd h (by simp)
    | some r =>
      obtain ⟨db'0, heq, hrecords, _, _, _, hnext, _⟩ := revert_ok_shape hrr hbn
      rw [heq] at h
      have hpair := (Except.ok.injEq _ _).mp h
      injection hpair with hdb0 hres0
      rw [hdb0] at hrecords hnext
      exact ⟨r, vrec, rfl, rfl, hres0.symm, hrecords, hnext⟩

theorem revert_WF {db : DB} {rid version : Nat} {reason : Option String}
    {db' : DB} {res : DecisionRecord} (hwf : WF db)
    (h : DecisionService.revert_to_version db rid version reason =
      .ok (db', res)) :
    WF db' := by
  obtain ⟨r, vrec, _, _, _, hrecords, hnext⟩ := revert_shape_of_ok h
  exact WF_of_map_nextId hwf hrecords (updContentFn_id _ _ _) hnext

theorem revert_invariant {db : DB} {rid version : Nat} {reason : Option String}
    {db' : DB} {res : DecisionRecord} (hsi : StatusInvariant db)
    (h : DecisionService.revert_to_version db rid version reason =
      .ok (db', res)) :
    StatusInvariant db' := by
  obtain ⟨r, vrec, _, _, _, hrecords, _⟩ := revert_shape_of_ok h
  exact invariant_of_updContent_records hsi hrecords

theorem applyOp_preserves {db : DB} (op : Op) (hwf : WF db)
    (hsi : StatusInvariant db) (hsafe : SafeOp op = true) :
    WF (applyOp db op) ∧ StatusInvariant (applyOp db op) := by
  cases op with
  | createRecord d c st =>
    unfold applyOp
    simp only []
    cases hc : DecisionService.create_decision_record db d c st with
    | error pe =>
      cases pe with
      | mk e dbe =>
        simp only []
        rw [(create_error_shape hc).1]
        exact ⟨hwf, hsi⟩
    | ok pr =>
      cases pr with
      | mk db' rec =>
        simp only []
        exact ⟨create_WF hwf hc, create_invariant hsi hsafe hc⟩
  | changeStatus rid ns reason auto =>
    unfold applyOp
    simp only []
    cases hc : DecisionService.change_record_status db rid ns reason auto with
    | error pe =>
      cases pe with
      | mk e dbe =>
        simp only []
        rw [(change_status_error_shape hc).1]
        exact ⟨hwf, hsi⟩
    | ok pr =>
      cases pr with
      | mk db' res =>
        simp only []
        exact ⟨change_status_WF hwf hc, change_status_invariant hwf hsi hc⟩
  | updateContent rid p =>
    unfold applyOp
    simp only []
    cases hc : DecisionService.update_decision_record db rid p with
    | error pe =>
      cases pe with
      | mk e dbe =>
        simp only []
        rw [(update_error_db hc).2]
        exact ⟨hwf, hsi⟩
    | ok pr =>
      cases pr with
      | mk db' res =>
        simp only []
        exact ⟨update_WF hwf hc, update_invariant hsi hc⟩
  | revertToVersion rid v reason =>
    unfold applyOp
    simp only []
    cases hc : DecisionService.revert_to_version db rid v reason with
    | error pe =>
      cases pe with
      | mk e dbe =>
        simp only []
        rw [(revert_error_db hc).2]
        exact ⟨hwf, hsi⟩
    | ok pr =>
      cases pr with
      | mk db' res =>
        simp only []
        exact ⟨revert_WF hwf hc, revert_invariant hsi hc⟩

theorem applyOps_preserves (ops : List Op) :
    ∀ db, WF db → StatusInvariant db → (∀ op ∈ ops, SafeOp op = true) →
      WF (applyOps db ops) ∧ StatusInvariant (applyOps db ops) := by
  induction ops with
  | nil =>
    intro db hwf hsi _
    exact ⟨hwf, hsi⟩
  | cons op t ih =>
    intro db hwf hsi hsafe
    have h1 := applyOp_preserves op hwf hsi (hsafe op (List.mem_cons_self _ _))
    have hstep : applyOps db (op :: t) = applyOps (applyOp db op) t := rfl
    rw [hstep]
    exact ih _ h1.1 h1.2 (fun o ho => hsafe o (List.mem_cons_of_mem _ ho))

/-- C1 (amended): after any sequence of the exposed operations in which
every createRecord call uses an initial status other than accepted,
implemented and implemented_inferred, every decision has at most one
accepted record and at most one implemented/implemented_inferred record.
(The restriction on createRecord is necessary: create_decision_record
performs no conflict check, so directly creating records with an explicit
accepted/implemented status violates the invariant — see the
counterexample.) -/
theorem C1_conflict_invariant (ds : List Nat) (ops : List Op)
    (hsafe : ∀ op ∈ ops, SafeOp op = true) :
    StatusInvariant (applyOps (initDB ds) ops) :=
  (applyOps_preserves ops (initDB ds)
    ⟨List.nodup_nil, fun r h => absurd h (List.not_mem_nil r)⟩
    (fun _ => ⟨Nat.zero_le 1, Nat.zero_le 1⟩)
    hsafe).2

/-- C1 counterexample: createRecord performs no conflict check, so two
createRecord calls with explicit status accepted leave decision 1 with
TWO accepted records — the invariant does not hold after arbitrary
sequences of the exposed operations. -/
theorem C1_counterexample :
    accepted_count twoAcceptedDB 1 = 2 ∧ ¬ StatusInvariant twoAcceptedDB := by
  refine ⟨rfl, fun hsi => ?_⟩
  have hb := (hsi 1).1
  rw [show accepted_count twoAcceptedDB 1 = 2 from rfl] at hb
  omega

/-- Witness for C1: a concrete safe run (create proposed, then accept). -/
theorem C1_conflict_invariant_witness :
    StatusInvariant (applyOps (initDB [1])
      [.createRecord 1 sampleContent none,
       .changeStatus 0 "accepted" none true]) :=
  C1_conflict_invariant [1]
    [.createRecord 1 sampleContent none,
     .changeStatus 0 "accepted" none true]
    (by decide)
